import Mathlib

/-!
Shallow embedding of the `routed` native bridge runtime
(`packages/routed_ffi/native/src/{lib,bridge_protocol}.rs` and
`packages/server_native/native/src/lib.rs`) and proofs about the
bridge wire codec, the connection pool, the socket write/retry path,
the response streaming paths and the direct-callback entry point.

Bytes are modelled as `Nat` (values produced by the code are `< 256`;
decoding applies `% 256` exactly where Rust's `u8` typing does).
Byte buffers are `List Nat`.  Fallible Rust functions returning
`Result<_, String>` become `Except String _`.
-/

namespace Routed

/-- MAX_PROXY_BODY_BYTES = 32 MiB. -/
def MAX_PROXY_BODY_BYTES : Nat := 32 * 1024 * 1024

/-- MAX_BRIDGE_FRAME_BYTES = 64 MiB. -/
def MAX_BRIDGE_FRAME_BYTES : Nat := 64 * 1024 * 1024

/-- BRIDGE_BODY_CHUNK_BYTES = 64 KiB. -/
def BRIDGE_BODY_CHUNK_BYTES : Nat := 64 * 1024

/-- Protocol version constant (`BRIDGE_PROTOCOL_VERSION = 1`). -/
def BRIDGE_PROTOCOL_VERSION : Nat := 1

/-- Legacy protocol version alias (`BRIDGE_PROTOCOL_VERSION_LEGACY = 1`). -/
def BRIDGE_PROTOCOL_VERSION_LEGACY : Nat := 1

def BRIDGE_REQUEST_FRAME_TYPE : Nat := 1
def BRIDGE_RESPONSE_FRAME_TYPE : Nat := 2
def BRIDGE_REQUEST_START_FRAME_TYPE : Nat := 3
def BRIDGE_REQUEST_CHUNK_FRAME_TYPE : Nat := 4
def BRIDGE_REQUEST_END_FRAME_TYPE : Nat := 5
def BRIDGE_RESPONSE_START_FRAME_TYPE : Nat := 6
def BRIDGE_RESPONSE_CHUNK_FRAME_TYPE : Nat := 7
def BRIDGE_RESPONSE_END_FRAME_TYPE : Nat := 8
def BRIDGE_TUNNEL_CHUNK_FRAME_TYPE : Nat := 9
def BRIDGE_TUNNEL_CLOSE_FRAME_TYPE : Nat := 10
def BRIDGE_REQUEST_FRAME_TYPE_TOKENIZED : Nat := 11
def BRIDGE_RESPONSE_FRAME_TYPE_TOKENIZED : Nat := 12
def BRIDGE_REQUEST_START_FRAME_TYPE_TOKENIZED : Nat := 13
def BRIDGE_RESPONSE_START_FRAME_TYPE_TOKENIZED : Nat := 14
def BRIDGE_HEADER_NAME_LITERAL_TOKEN : Nat := 0xFFFF

/-- Big-endian `u16::to_be_bytes`. -/
def u16beL (v : Nat) : List Nat := [v / 256 % 256, v % 256]

/-- Big-endian `u32::to_be_bytes`. -/
def u32beL (v : Nat) : List Nat :=
  [v / 16777216 % 256, v / 65536 % 256, v / 256 % 256, v % 256]

/-- Big-endian `uN::from_be_bytes` over a list of bytes (`% 256` models the
`u8` element type). -/
def beVal (bs : List Nat) : Nat := bs.foldl (fun acc b => acc * 256 + b % 256) 0

/-- `BridgeByteReader`: a borrowed byte slice plus a cursor offset. -/
structure Rd where
  bytes : List Nat
  off : Nat
deriving Repr, DecidableEq

/-- `BridgeByteReader::get_exact`. -/
def Rd.getExact (r : Rd) (n : Nat) : Except String (List Nat × Rd) :=
  if r.off + n > r.bytes.length then .error "truncated bridge payload"
  else .ok ((r.bytes.drop r.off).take n, ⟨r.bytes, r.off + n⟩)

/-- `BridgeByteReader::get_u8`. -/
def Rd.getU8 (r : Rd) : Except String (Nat × Rd) :=
  match r.getExact 1 with
  | .error e => .error e
  | .ok (bs, r') => .ok (beVal bs, r')

/-- `BridgeByteReader::get_u16`. -/
def Rd.getU16 (r : Rd) : Except String (Nat × Rd) :=
  match r.getExact 2 with
  | .error e => .error e
  | .ok (bs, r') => .ok (beVal bs, r')

/-- `BridgeByteReader::get_u32`. -/
def Rd.getU32 (r : Rd) : Except String (Nat × Rd) :=
  match r.getExact 4 with
  | .error e => .error e
  | .ok (bs, r') => .ok (beVal bs, r')

/-- `BridgeByteReader::get_bytes` (`get_u32` length then bounds-checked
slice; the bounds check is the same `offset + length > len` test as
`get_exact`, with the same error string). -/
def Rd.getBytes (r : Rd) : Except String (List Nat × Rd) :=
  match r.getU32 with
  | .error e => .error e
  | .ok (len, r') => r'.getExact len

/-- `BridgeByteReader::ensure_done`. -/
def Rd.ensureDone (r : Rd) : Except String Unit :=
  if r.off = r.bytes.length then .ok ()
  else .error ("unexpected trailing bridge payload bytes: " ++
    toString (r.bytes.length - r.off))

/-- `BridgeByteWriter::put_bytes`: u32 BE length prefix then the bytes;
fails when the length does not fit `u32`. -/
def putBytes (w : List Nat) (bs : List Nat) : Except String (List Nat) :=
  if bs.length ≥ 4294967296 then .error "bridge field length does not fit u32"
  else .ok (w ++ u32beL bs.length ++ bs)

/-- UTF-8 encoding of one scalar value (model of Rust `str` bytes). -/
def charUtf8 (c : Char) : List Nat :=
  let n := c.toNat
  if n < 128 then [n]
  else if n < 2048 then [192 + n / 64, 128 + n % 64]
  else if n < 65536 then [224 + n / 4096, 128 + n / 64 % 64, 128 + n % 64]
  else [240 + n / 262144, 128 + n / 4096 % 64, 128 + n / 64 % 64, 128 + n % 64]

/-- Bytes of a Rust `&str`. -/
def strBytes (s : String) : List Nat :=
  s.data.foldr (fun c acc => charUtf8 c ++ acc) []

/-- `BridgeByteWriter::put_string`. -/
def putString (w : List Nat) (s : String) : Except String (List Nat) :=
  putBytes w (strBytes s)

/-- `bridge_header_name_token`: the 29-entry compact header-name table. -/
def bridge_header_name_token (name : String) : Option Nat :=
  match name with
  | "host" => some 0
  | "connection" => some 1
  | "user-agent" => some 2
  | "accept" => some 3
  | "accept-encoding" => some 4
  | "accept-language" => some 5
  | "content-type" => some 6
  | "content-length" => some 7
  | "transfer-encoding" => some 8
  | "cookie" => some 9
  | "set-cookie" => some 10
  | "cache-control" => some 11
  | "pragma" => some 12
  | "upgrade" => some 13
  | "authorization" => some 14
  | "origin" => some 15
  | "referer" => some 16
  | "location" => some 17
  | "server" => some 18
  | "date" => some 19
  | "x-forwarded-for" => some 20
  | "x-forwarded-proto" => some 21
  | "x-forwarded-host" => some 22
  | "x-forwarded-port" => some 23
  | "x-request-id" => some 24
  | "sec-websocket-key" => some 25
  | "sec-websocket-version" => some 26
  | "sec-websocket-protocol" => some 27
  | "sec-websocket-extensions" => some 28
  | _ => none

/-- The table's names, in token order 0..=28. -/
def bridgeTokenTableNames : List String :=
  ["host", "connection", "user-agent", "accept", "accept-encoding",
   "accept-language", "content-type", "content-length", "transfer-encoding",
   "cookie", "set-cookie", "cache-control", "pragma", "upgrade",
   "authorization", "origin", "referer", "location", "server", "date",
   "x-forwarded-for", "x-forwarded-proto", "x-forwarded-host",
   "x-forwarded-port", "x-request-id", "sec-websocket-key",
   "sec-websocket-version", "sec-websocket-protocol",
   "sec-websocket-extensions"]

/-- `write_bridge_header_name`: tokenized form when the table has the name,
else literal token 0xFFFF followed by the length-prefixed name. -/
def write_bridge_header_name (w : List Nat) (name : String) :
    Except String (List Nat) :=
  match bridge_header_name_token name with
  | some token => .ok (w ++ u16beL token)
  | none => putBytes (w ++ u16beL BRIDGE_HEADER_NAME_LITERAL_TOKEN) (strBytes name)

/-- `bridge_header_name_from_token_header_name`: token to canonical
lowercase name bytes. -/
def bridge_header_name_from_token (token : Nat) : Option (List Nat) :=
  (bridgeTokenTableNames.get? token).map strBytes

/-- One byte of `http::HeaderName::from_bytes` validation: valid token
chars map to themselves, ASCII uppercase normalizes to lowercase, anything
else is invalid. -/
def headerNameCharNorm (b : Nat) : Option Nat :=
  if 97 ≤ b ∧ b ≤ 122 then some b
  else if 65 ≤ b ∧ b ≤ 90 then some (b + 32)
  else if 48 ≤ b ∧ b ≤ 57 then some b
  else if b = 33 ∨ b = 35 ∨ b = 36 ∨ b = 37 ∨ b = 38 ∨ b = 39 ∨ b = 42 ∨
      b = 43 ∨ b = 45 ∨ b = 46 ∨ b = 94 ∨ b = 95 ∨ b = 96 ∨ b = 124 ∨ b = 126
    then some b
  else none

/-- `http::HeaderName::from_bytes` as used by the decoders: `none` on an
empty or invalid name, otherwise the normalized (lowercased) name bytes. -/
def headerNameFromBytes (bs : List Nat) : Option (List Nat) :=
  if bs = [] then none else bs.mapM headerNameCharNorm

/-- `http::HeaderValue::from_bytes` validity: each byte is `\t` or in
`32..=255` except 127. -/
def headerValueIsValid (bs : List Nat) : Bool :=
  bs.all fun b => b = 9 ∨ (32 ≤ b ∧ b ≠ 127)

/-- `http::HeaderValue::to_str` success: only visible ASCII or tab. -/
def headerValueIsVisibleAscii (bs : List Nat) : Bool :=
  bs.all fun b => b = 9 ∨ (32 ≤ b ∧ b < 127)

/-- `decode_bridge_response_header_name` (bridge_protocol.rs). -/
def decode_bridge_response_header_name (r : Rd) (tokenized : Bool) :
    Except String (Option (List Nat) × Rd) :=
  if !tokenized then
    match r.getBytes with
    | .error e => .error e
    | .ok (name, r') => .ok (headerNameFromBytes name, r')
  else
    match r.getU16 with
    | .error e => .error e
    | .ok (token, r') =>
      if token = BRIDGE_HEADER_NAME_LITERAL_TOKEN then
        match r'.getBytes with
        | .error e => .error e
        | .ok (name, r'') => .ok (headerNameFromBytes name, r'')
      else
        match bridge_header_name_from_token token with
        | some name => .ok (some name, r')
        | none => .error ("invalid bridge header name token: " ++ toString token)

/-- `is_supported_bridge_protocol_version`. -/
def is_supported_bridge_protocol_version (v : Nat) : Bool :=
  v = BRIDGE_PROTOCOL_VERSION ∨ v = BRIDGE_PROTOCOL_VERSION_LEGACY

/-- `peek_bridge_frame_type`. -/
def peek_bridge_frame_type (payload : List Nat) : Except String Nat :=
  if payload.length < 2 then .error "truncated bridge payload"
  else
    let version := payload.headD 0
    if !is_supported_bridge_protocol_version version then
      .error ("unsupported bridge protocol version: " ++ toString version)
    else .ok (payload.getD 1 0)

def is_bridge_response_frame_type (ft : Nat) : Bool :=
  ft = BRIDGE_RESPONSE_FRAME_TYPE ∨ ft = BRIDGE_RESPONSE_FRAME_TYPE_TOKENIZED

def is_bridge_response_frame_type_tokenized (ft : Nat) : Bool :=
  ft = BRIDGE_RESPONSE_FRAME_TYPE_TOKENIZED

def is_bridge_response_start_frame_type (ft : Nat) : Bool :=
  ft = BRIDGE_RESPONSE_START_FRAME_TYPE ∨
    ft = BRIDGE_RESPONSE_START_FRAME_TYPE_TOKENIZED

def is_bridge_response_start_frame_type_tokenized (ft : Nat) : Bool :=
  ft = BRIDGE_RESPONSE_START_FRAME_TYPE_TOKENIZED

/-- The header loop shared by `decode_bridge_response` and
`decode_bridge_response_start`: for each of `count` iterations read a
(name, value) pair, silently skipping pairs whose name or value fails
HTTP validation. -/
def readResponseHeaders (tokenized : Bool) (count : Nat) (r : Rd) :
    Except String (List (List Nat × List Nat) × Rd) :=
  match count with
  | 0 => .ok ([], r)
  | k + 1 =>
    match decode_bridge_response_header_name r tokenized with
    | .error e => .error e
    | .ok (nameOpt, r1) =>
      match r1.getBytes with
      | .error e => .error e
      | .ok (value, r2) =>
        match readResponseHeaders tokenized k r2 with
        | .error e => .error e
        | .ok (rest, r3) =>
          match nameOpt with
          | none => .ok (rest, r3)
          | some name =>
            if headerValueIsValid value then .ok ((name, value) :: rest, r3)
            else .ok (rest, r3)

/-- Decoded single-frame bridge response. -/
structure BridgeResponse where
  status : Nat
  headers : List (List Nat × List Nat)
  body_bytes : List Nat
deriving Repr, DecidableEq

/-- `decode_bridge_response` (bridge_protocol.rs: accepts literal type 2 and
tokenized type 12). -/
def decode_bridge_response (payload : List Nat) : Except String BridgeResponse :=
  let r : Rd := ⟨payload, 0⟩
  match r.getU8 with
  | .error e => .error e
  | .ok (version, r) =>
    if !is_supported_bridge_protocol_version version then
      .error ("unsupported bridge protocol version: " ++ toString version)
    else
      match r.getU8 with
      | .error e => .error e
      | .ok (frame_type, r) =>
        if !is_bridge_response_frame_type frame_type then
          .error ("invalid bridge response frame type: " ++ toString frame_type)
        else
          let tokenized := is_bridge_response_frame_type_tokenized frame_type
          match r.getU16 with
          | .error e => .error e
          | .ok (status, r) =>
            match r.getU32 with
            | .error e => .error e
            | .ok (header_count, r) =>
              match readResponseHeaders tokenized header_count r with
              | .error e => .error e
              | .ok (headers, r) =>
                match r.getBytes with
                | .error e => .error e
                | .ok (body, r) =>
                  match r.ensureDone with
                  | .error e => .error e
                  | .ok _ => .ok ⟨status, headers, body⟩

/-- `decode_bridge_response_start` (accepts literal type 6 and tokenized
type 14). -/
def decode_bridge_response_start (payload : List Nat) :
    Except String (Nat × List (List Nat × List Nat)) :=
  let r : Rd := ⟨payload, 0⟩
  match r.getU8 with
  | .error e => .error e
  | .ok (version, r) =>
    if !is_supported_bridge_protocol_version version then
      .error ("unsupported bridge protocol version: " ++ toString version)
    else
      match r.getU8 with
      | .error e => .error e
      | .ok (frame_type, r) =>
        if !is_bridge_response_start_frame_type frame_type then
          .error ("invalid bridge response start frame type: " ++
            toString frame_type)
        else
          let tokenized := is_bridge_response_start_frame_type_tokenized frame_type
          match r.getU16 with
          | .error e => .error e
          | .ok (status, r) =>
            match r.getU32 with
            | .error e => .error e
            | .ok (header_count, r) =>
              match readResponseHeaders tokenized header_count r with
              | .error e => .error e
              | .ok (headers, r) =>
                match r.ensureDone with
                | .error e => .error e
                | .ok _ => .ok (status, headers)

/-- Shared shape of `decode_bridge_response_chunk` / `decode_bridge_tunnel_chunk`:
version, expected frame type, length-prefixed chunk, end of payload. -/
def decodeChunkShapedFrame (expected : Nat) (errName : String)
    (payload : List Nat) : Except String (List Nat) :=
  let r : Rd := ⟨payload, 0⟩
  match r.getU8 with
  | .error e => .error e
  | .ok (version, r) =>
    if !is_supported_bridge_protocol_version version then
      .error ("unsupported bridge protocol version: " ++ toString version)
    else
      match r.getU8 with
      | .error e => .error e
      | .ok (frame_type, r) =>
        if frame_type ≠ expected then
          .error ("invalid bridge " ++ errName ++ " frame type: " ++
            toString frame_type)
        else
          match r.getBytes with
          | .error e => .error e
          | .ok (chunk, r) =>
            match r.ensureDone with
            | .error e => .error e
            | .ok _ => .ok chunk

/-- Shared shape of `decode_bridge_response_end` / `decode_bridge_tunnel_close`:
version, expected frame type, end of payload. -/
def decodeEmptyShapedFrame (expected : Nat) (errName : String)
    (payload : List Nat) : Except String Unit :=
  let r : Rd := ⟨payload, 0⟩
  match r.getU8 with
  | .error e => .error e
  | .ok (version, r) =>
    if !is_supported_bridge_protocol_version version then
      .error ("unsupported bridge protocol version: " ++ toString version)
    else
      match r.getU8 with
      | .error e => .error e
      | .ok (frame_type, r) =>
        if frame_type ≠ expected then
          .error ("invalid bridge " ++ errName ++ " frame type: " ++
            toString frame_type)
        else r.ensureDone

/-- `decode_bridge_response_chunk`. -/
def decode_bridge_response_chunk (payload : List Nat) : Except String (List Nat) :=
  decodeChunkShapedFrame BRIDGE_RESPONSE_CHUNK_FRAME_TYPE "response chunk" payload

/-- `decode_bridge_response_end`. -/
def decode_bridge_response_end (payload : List Nat) : Except String Unit :=
  decodeEmptyShapedFrame BRIDGE_RESPONSE_END_FRAME_TYPE "response end" payload

/-- `decode_bridge_tunnel_chunk`. -/
def decode_bridge_tunnel_chunk (payload : List Nat) : Except String (List Nat) :=
  decodeChunkShapedFrame BRIDGE_TUNNEL_CHUNK_FRAME_TYPE "tunnel chunk" payload

/-- `decode_bridge_tunnel_close`. -/
def decode_bridge_tunnel_close (payload : List Nat) : Except String Unit :=
  decodeEmptyShapedFrame BRIDGE_TUNNEL_CLOSE_FRAME_TYPE "tunnel close" payload

/-! ### Bridge connection pool (`BridgePool`) -/

/-- A pooled connection's reusable read buffer, tracked by logical length
and allocated capacity. -/
structure BridgeBuffer where
  len : Nat
  cap : Nat
deriving Repr, DecidableEq

/-- One pooled bridge connection.  The byte stream itself is not needed for
the pool claims; only the reusable read buffer is tracked. -/
structure BridgeConnection where
  read_buffer : BridgeBuffer
deriving Repr, DecidableEq

/-- `BridgePool`'s mutable state: single hot slot plus idle vector.  The
idle `Vec` pushes and pops at its end; it is represented head-first (head =
most recently pushed), which preserves the LIFO push/pop semantics. -/
structure BridgePool where
  max_idle : Nat
  hot : Option BridgeConnection
  idle : List BridgeConnection
deriving Repr, DecidableEq

/-- The buffer hygiene step of `BridgePool::release`: replace the buffer by
a fresh 8 KiB one when capacity exceeds `MAX_BRIDGE_FRAME_BYTES`, else
clear it in place (capacity unchanged). -/
def releaseBufferHygiene (c : BridgeConnection) : BridgeConnection :=
  if c.read_buffer.cap > MAX_BRIDGE_FRAME_BYTES then ⟨⟨0, 8 * 1024⟩⟩
  else ⟨⟨0, c.read_buffer.cap⟩⟩

/-- `BridgePool::release`: hygiene, then refill the hot slot if empty, else
push to idle when under `max_idle`, else drop. -/
def BridgePool.release (p : BridgePool) (c : BridgeConnection) : BridgePool :=
  let c := releaseBufferHygiene c
  match p.hot with
  | none => { p with hot := some c }
  | some _ =>
    if p.idle.length < p.max_idle then { p with idle := c :: p.idle } else p

/-- `BridgePool::acquire`: hot slot first, then idle pop; `none` means both
were empty and a fresh connection would be established by `connect_new`
(which allocates an 8 KiB read buffer). -/
def BridgePool.acquire (p : BridgePool) : Option BridgeConnection × BridgePool :=
  match p.hot with
  | some c => (some c, { p with hot := none })
  | none =>
    match p.idle with
    | c :: rest => (some c, { p with idle := rest })
    | [] => (none, p)

/-- The fresh connection `connect_new` produces (8 KiB read buffer). -/
def connectNewConnection : BridgeConnection := ⟨⟨0, 8 * 1024⟩⟩

/-! ### Frame read path (`read_bridge_frame_reuse`) -/

/-- First four bytes interpreted as the big-endian `u32` frame length. -/
def be32of (l : List Nat) : Nat := beVal (l.take 4)

/-- `read_bridge_frame_reuse` over a finite inbound byte stream (the
stream's end is EOF).  Returns `(none, rest)` when EOF arrives before any
header byte, errors on EOF mid-header, rejects oversize declared lengths
before reading any payload byte, errors on EOF mid-payload, and otherwise
returns the payload (the reuse buffer's new contents) plus the unread
remainder of the stream. -/
def read_bridge_frame_reuse (input : List Nat) :
    Except String (Option (List Nat) × List Nat) :=
  if input = [] then .ok (none, [])
  else if input.length < 4 then
    .error "bridge closed connection while reading frame header"
  else
    let payload_len := be32of input
    if payload_len > MAX_BRIDGE_FRAME_BYTES then
      .error ("bridge frame too large: " ++ toString payload_len)
    else
      let rest := input.drop 4
      if rest.length < payload_len then
        .error "bridge stream ended before response payload"
      else .ok (some (rest.take payload_len), rest.drop payload_len)

/-! ### Request encoding (tokenized forms of bridge_protocol.rs) -/

/-- `BridgeRequestRef`: borrowed request descriptor.  Header values are raw
bytes; `HeaderValue::to_str` succeeds iff the value is visible ASCII. -/
structure BridgeRequestRef where
  method : String
  scheme : String
  authority : String
  path : String
  query : String
  protocol : String
  headers : List (String × List Nat)
deriving Repr, DecidableEq

/-- `BridgeByteWriter::patch_u32`: overwrite 4 bytes at `pos`. -/
def patchU32 (w : List Nat) (pos v : Nat) : List Nat :=
  w.take pos ++ u32beL v ++ w.drop (pos + 4)

/-- The header emission loop of `encode_bridge_request_headers`: skip
values that fail `to_str`, count emitted headers with a checked u32 add,
write tokenized name then length-prefixed value. -/
def encodeHeadersLoop (headers : List (String × List Nat)) (w : List Nat)
    (count : Nat) : Except String (List Nat × Nat) :=
  match headers with
  | [] => .ok (w, count)
  | (name, value) :: rest =>
    if !headerValueIsVisibleAscii value then encodeHeadersLoop rest w count
    else if count + 1 ≥ 4294967296 then
      .error "bridge request has too many headers"
    else
      match write_bridge_header_name w name with
      | .error e => .error e
      | .ok w1 =>
        match putBytes w1 value with
        | .error e => .error e
        | .ok w2 => encodeHeadersLoop rest w2 (count + 1)

/-- `encode_bridge_request_headers`: `0` count for no headers, else a
reserved u32 count slot back-patched after the loop. -/
def encode_bridge_request_headers (w : List Nat)
    (headers : List (String × List Nat)) : Except String (List Nat) :=
  if headers = [] then .ok (w ++ u32beL 0)
  else
    let pos := w.length
    match encodeHeadersLoop headers (w ++ u32beL 0) 0 with
    | .error e => .error e
    | .ok (w2, count) => .ok (patchU32 w2 pos count)

/-- Common head of `encode_bridge_request_start` / `encode_bridge_request`:
version byte, frame type byte, six length-prefixed strings. -/
def encodeReqHead (ft : Nat) (req : BridgeRequestRef) :
    Except String (List Nat) :=
  match putString [BRIDGE_PROTOCOL_VERSION, ft] req.method with
  | .error e => .error e
  | .ok w =>
    match putString w req.scheme with
    | .error e => .error e
    | .ok w =>
      match putString w req.authority with
      | .error e => .error e
      | .ok w =>
        match putString w req.path with
        | .error e => .error e
        | .ok w =>
          match putString w req.query with
          | .error e => .error e
          | .ok w => putString w req.protocol

/-- `encode_bridge_request_start` (tokenized, frame type 13). -/
def encode_bridge_request_start (req : BridgeRequestRef) :
    Except String (List Nat) :=
  match encodeReqHead BRIDGE_REQUEST_START_FRAME_TYPE_TOKENIZED req with
  | .error e => .error e
  | .ok w => encode_bridge_request_headers w req.headers

/-- `encode_bridge_request` (tokenized single frame, type 11) with inline
body. -/
def encode_bridge_request (req : BridgeRequestRef) (body : List Nat) :
    Except String (List Nat) :=
  match encodeReqHead BRIDGE_REQUEST_FRAME_TYPE_TOKENIZED req with
  | .error e => .error e
  | .ok w =>
    match encode_bridge_request_headers w req.headers with
    | .error e => .error e
    | .ok w => putBytes w body

/-- `encode_bridge_request_end`: two-byte payload, version then type 5. -/
def encode_bridge_request_end : List Nat :=
  [BRIDGE_PROTOCOL_VERSION, BRIDGE_REQUEST_END_FRAME_TYPE]

/-- `encode_bridge_request_chunk_payload`: version, type 4, length-prefixed
chunk. -/
def encode_bridge_request_chunk_payload (chunk : List Nat) :
    Except String (List Nat) :=
  putBytes [BRIDGE_PROTOCOL_VERSION, BRIDGE_REQUEST_CHUNK_FRAME_TYPE] chunk

/-! ### Socket write path with write-failure injection

The socket is modelled as the ordered list of successfully written frame
payloads; `failAt = some k` makes the k-th write operation fail (a
transport error).  Errors carry the socket state at the failure point so
theorems can speak about what had been emitted. -/

structure WSock where
  frames : List (List Nat)
  failAt : Option Nat
  ops : Nat
deriving Repr, DecidableEq

abbrev WErr := String × WSock

/-- One physical frame write (header + payload bytes on the wire); records
the frame payload. -/
def WSock.writeOp (s : WSock) (payload : List Nat) : Except WErr WSock :=
  if s.failAt = some s.ops then
    .error ("write frame payload failed: connection reset", s)
  else .ok ⟨s.frames ++ [payload], s.failAt, s.ops + 1⟩

/-- `write_bridge_frame`: size guard then one write. -/
def write_bridge_frame (s : WSock) (payload : List Nat) : Except WErr WSock :=
  if payload.length > MAX_BRIDGE_FRAME_BYTES then
    .error ("bridge frame too large: " ++ toString payload.length, s)
  else s.writeOp payload

/-- `write_bridge_chunk_frame_with_type`: u32 guard on the chunk length,
size guard on `6 + len`, then one write of the chunk-frame payload. -/
def write_bridge_chunk_frame_with_type (s : WSock) (ftype : Nat)
    (chunk : List Nat) : Except WErr WSock :=
  if chunk.length ≥ 4294967296 then
    .error ("bridge chunk length does not fit u32", s)
  else if 6 + chunk.length > MAX_BRIDGE_FRAME_BYTES then
    .error ("bridge frame too large: " ++ toString (6 + chunk.length), s)
  else s.writeOp ([BRIDGE_PROTOCOL_VERSION, ftype] ++ u32beL chunk.length ++ chunk)

/-- `write_bridge_request_chunk_frame`. -/
def write_bridge_request_chunk_frame (s : WSock) (chunk : List Nat) :
    Except WErr WSock :=
  write_bridge_chunk_frame_with_type s BRIDGE_REQUEST_CHUNK_FRAME_TYPE chunk

/-- Structural worker for `chunksOf` (fuel bounds the recursion depth; any
fuel at least the list length gives the untruncated answer since every
step consumes at least one byte). -/
def chunksOfFuel : Nat → List Nat → List (List Nat)
  | _, [] => []
  | 0, _ :: _ => []
  | fuel + 1, b :: bs =>
    (b :: bs).take BRIDGE_BODY_CHUNK_BYTES ::
      chunksOfFuel fuel ((b :: bs).drop BRIDGE_BODY_CHUNK_BYTES)

/-- Rust `slice::chunks(BRIDGE_BODY_CHUNK_BYTES)`: split into pieces of at
most 64 KiB; the empty slice yields no pieces. -/
def chunksOf (l : List Nat) : List (List Nat) := chunksOfFuel l.length l

/-- The `for frame_chunk in chunk.chunks(..)` loop body. -/
def writeChunksSeq (s : WSock) : List (List Nat) → Except WErr WSock
  | [] => .ok s
  | c :: rest =>
    match write_bridge_request_chunk_frame s c with
    | .error e => .error e
    | .ok s' => writeChunksSeq s' rest

/-- `write_bridge_request_body_chunk`: checked cumulative body count,
MAX_PROXY_BODY_BYTES guard before any write, then the chunk split into
64 KiB frames. -/
def write_bridge_request_body_chunk (s : WSock) (chunk : List Nat)
    (total : Nat) : Except WErr (WSock × Nat) :=
  let total' := total + chunk.length
  if total' > MAX_PROXY_BODY_BYTES then
    .error ("failed to read request body: body too large: " ++ toString total', s)
  else
    match writeChunksSeq s (chunksOf chunk) with
    | .error e => .error e
    | .ok s' => .ok (s', total')

/-- One item pulled from the HTTP request body stream. -/
inductive BodyItem where
  | chunk (bytes : List Nat)
  | fail (msg : String)
deriving Repr, DecidableEq

/-- The first pull loop of `write_bridge_request`: skip empty chunks until
a non-empty chunk arrives or the stream ends. -/
def pullFirstNonEmpty : List BodyItem →
    Except String (Option (List Nat × List BodyItem))
  | [] => .ok none
  | .fail msg :: _ => .error ("failed to read request body chunk: " ++ msg)
  | .chunk c :: rest =>
    if c = [] then pullFirstNonEmpty rest else .ok (some (c, rest))

/-- The second pull loop of `write_bridge_request`: body chunks after the
first non-empty one. -/
def processRemainingChunks (s : WSock) (total : Nat) :
    List BodyItem → Except WErr (WSock × Nat)
  | [] => .ok (s, total)
  | .fail msg :: _ => .error ("failed to read request body chunk: " ++ msg, s)
  | .chunk c :: rest =>
    if c = [] then processRemainingChunks s total rest
    else
      match write_bridge_request_body_chunk s c total with
      | .error e => .error e
      | .ok (s', t') => processRemainingChunks s' t' rest

/-- `write_bridge_empty_request`: single-frame request with empty inline
body. -/
def write_bridge_empty_request (s : WSock) (req : BridgeRequestRef) :
    Except WErr WSock :=
  match encode_bridge_request req [] with
  | .error e => .error (e, s)
  | .ok payload => write_bridge_frame s payload

/-- `write_bridge_request`.  Second component is the final value of the
`request_body_empty` out-parameter (true iff no non-empty body chunk was
observed). -/
def write_bridge_request (s : WSock) (req : BridgeRequestRef)
    (stream : List BodyItem) (known_empty : Bool) :
    Except WErr WSock × Bool :=
  if known_empty then (write_bridge_empty_request s req, true)
  else
    match pullFirstNonEmpty stream with
    | .error e => (.error (e, s), true)
    | .ok none => (write_bridge_empty_request s req, true)
    | .ok (some (c, rest)) =>
      (match encode_bridge_request_start req with
       | .error e => .error (e, s)
       | .ok startP =>
         match write_bridge_frame s startP with
         | .error e => .error e
         | .ok s1 =>
           match write_bridge_request_body_chunk s1 c 0 with
           | .error e => .error e
           | .ok (s2, t) =>
             match processRemainingChunks s2 t rest with
             | .error e => .error e
             | .ok (s3, _) => write_bridge_frame s3 encode_bridge_request_end,
       false)

/-! ### `call_bridge` and its empty-body retry

The response half of the exchange is abstracted as an environment: the
outcome of `read_bridge_frame_reuse` on the connection's first response
frame and the outcome of `decode_bridge_response_stream`. -/

/-- Abstracted response behaviour of one bridge connection. -/
structure ConnScript where
  firstRead : Except String (Option (List Nat))
  decodeRes : Except String Unit
deriving Repr

structure CallEnv where
  req : BridgeRequestRef
  stream : List BodyItem
  knownEmpty : Bool
  mainFailAt : Option Nat
  mainConn : ConnScript
  retryConnect : Except String ConnScript
  retryFailAt : Option Nat

/-- Observable outcome of `call_bridge`: result, number of connections an
exchange was attempted on, whether the empty-body retry ran, the frames
emitted on the main connection, and the frames emitted on the retry
connection. -/
structure CallOut where
  result : Except String Unit
  attempts : Nat
  retried : Bool
  mainFrames : List (List Nat)
  retryFrames : List (List Nat)
deriving Repr

/-- `call_bridge_retry_empty_body`: fresh connection via `connect_new`,
single-frame empty request, one read, decode; no further retry. -/
def call_bridge_retry_empty_body (env : CallEnv) :
    Except String Unit × List (List Nat) :=
  match env.retryConnect with
  | .error e => (.error e, [])
  | .ok conn =>
    match write_bridge_empty_request ⟨[], env.retryFailAt, 0⟩ env.req with
    | .error (e, sF) => (.error e, sF.frames)
    | .ok s1 =>
      match conn.firstRead with
      | .error e => (.error e, s1.frames)
      | .ok none => (.error "bridge closed connection without response", s1.frames)
      | .ok (some _) => (conn.decodeRes, s1.frames)

/-- `call_bridge`: write over an acquired connection; on write failure with
`request_body_empty` retry once; the first-frame read's hard error
propagates (the `?` operator) while a clean EOF (`Ok(false)`) retries when
the body was empty; a decode failure retries when the body was empty. -/
def call_bridge (env : CallEnv) : CallOut :=
  match write_bridge_request ⟨[], env.mainFailAt, 0⟩ env.req env.stream
      env.knownEmpty with
  | (.error (e, sF), bodyEmpty) =>
    if bodyEmpty then
      let (r, rf) := call_bridge_retry_empty_body env
      ⟨r, 2, true, sF.frames, rf⟩
    else ⟨.error e, 1, false, sF.frames, []⟩
  | (.ok s1, bodyEmpty) =>
    match env.mainConn.firstRead with
    | .error e => ⟨.error e, 1, false, s1.frames, []⟩
    | .ok none =>
      if bodyEmpty then
        let (r, rf) := call_bridge_retry_empty_body env
        ⟨r, 2, true, s1.frames, rf⟩
      else ⟨.error "bridge closed connection without response", 1, false,
        s1.frames, []⟩
    | .ok (some _) =>
      match env.mainConn.decodeRes with
      | .ok _ => ⟨.ok (), 1, false, s1.frames, []⟩
      | .error e =>
        if bodyEmpty then
          let (r, rf) := call_bridge_retry_empty_body env
          ⟨r, 2, true, s1.frames, rf⟩
        else ⟨.error e, 1, false, s1.frames, []⟩

/-! ### Response streaming loops -/

/-- `stream_bridge_response_chunks` (socket path): each element of `reads`
is one `read_bridge_frame_reuse` outcome (`.error` = transport error,
payload otherwise); list end is EOF.  Result is the ordered list of sends
into the HTTP body channel. -/
def streamSocketChunks (reads : List (Except String (List Nat)))
    (total : Nat) : List (Except String (List Nat)) :=
  match reads with
  | [] => [.error "bridge closed connection before response end"]
  | .error e :: _ => [.error e]
  | .ok payload :: rest =>
    match peek_bridge_frame_type payload with
    | .error e => [.error e]
    | .ok ft =>
      if ft = BRIDGE_RESPONSE_CHUNK_FRAME_TYPE then
        match decode_bridge_response_chunk payload with
        | .error e => [.error e]
        | .ok chunk =>
          if chunk = [] then streamSocketChunks rest total
          else
            let total' := total + chunk.length
            if total' > MAX_PROXY_BODY_BYTES then
              [.error ("bridge response body too large: " ++ toString total')]
            else .ok chunk :: streamSocketChunks rest total'
      else if ft = BRIDGE_RESPONSE_END_FRAME_TYPE then
        match decode_bridge_response_end payload with
        | .error e => [.error e]
        | .ok _ => []
      else [.error ("unexpected bridge response frame type: " ++ toString ft)]

/-- `stream_direct_bridge_response_frames` (direct-callback path): each
element is one payload from the inbound queue; list end is queue closure.
Result is the ordered list of sends into the HTTP body channel. -/
def streamDirectFrames (payloads : List (List Nat)) :
    List (Except String (List Nat)) :=
  match payloads with
  | [] => [.error "direct bridge callback closed before response end"]
  | payload :: rest =>
    match peek_bridge_frame_type payload with
    | .error e => [.error ("decode response failed: " ++ e)]
    | .ok ft =>
      if ft = BRIDGE_RESPONSE_CHUNK_FRAME_TYPE then
        match decode_bridge_response_chunk payload with
        | .error e => [.error ("decode response failed: " ++ e)]
        | .ok chunk =>
          if chunk = [] then streamDirectFrames rest
          else .ok chunk :: streamDirectFrames rest
      else if ft = BRIDGE_RESPONSE_END_FRAME_TYPE then
        match decode_bridge_response_end payload with
        | .error e => [.error ("decode response failed: " ++ e)]
        | .ok _ => []
      else [.error ("decode response failed: unexpected bridge frame type: " ++
        toString ft)]

/-! ### Direct-callback push entry point -/

/-- One pending direct request: its inbound queue and whether the
receiving task still holds the receiver. -/
structure PendingEntry where
  queue : List (List Nat)
  receiverOpen : Bool
deriving Repr, DecidableEq

/-- `DirectRequestBridge`'s pending registry (the `HashMap` as an
association list). -/
structure DirectBridgeSt where
  pending : List (Nat × PendingEntry)
deriving Repr, DecidableEq

/-- Append a payload to the pending entry's inbound queue. -/
def pushToPending (st : DirectBridgeSt) (id : Nat) (payload : List Nat) :
    DirectBridgeSt :=
  ⟨st.pending.map fun e =>
    if e.1 = id then (e.1, ⟨e.2.queue ++ [payload], e.2.receiverOpen⟩) else e⟩

/-- `server_native_push_direct_response_frame`: 0 on null handle or null
payload pointer, 0 when no direct bridge is configured, 0 when the id is
not pending, 0 when the receiver has been dropped, else 1 with the payload
appended to the pending request's inbound queue. -/
def server_native_push_direct_response_frame (handleNull payloadNull : Bool)
    (bridge : Option DirectBridgeSt) (request_id : Nat) (payload : List Nat) :
    Nat × Option DirectBridgeSt :=
  if handleNull ∨ payloadNull then (0, bridge)
  else
    match bridge with
    | none => (0, none)
    | some st =>
      match st.pending.lookup request_id with
      | none => (0, some st)
      | some entry =>
        if entry.receiverOpen then
          (1, some (pushToPending st request_id payload))
        else (0, some st)

/-- `server_native_complete_direct_request`: forwards all arguments to
`server_native_push_direct_response_frame`. -/
def server_native_complete_direct_request (handleNull payloadNull : Bool)
    (bridge : Option DirectBridgeSt) (request_id : Nat) (payload : List Nat) :
    Nat × Option DirectBridgeSt :=
  server_native_push_direct_response_frame handleNull payloadNull bridge
    request_id payload

/-! ### Byte-level frame writers (wire bytes, for length-prefix claims) -/

/-- Wire bytes produced by `write_bridge_frame`: u32 BE length header then
the payload (the coalesced and vectored paths write the same bytes). -/
def write_bridge_frame_bytes (payload : List Nat) : Except String (List Nat) :=
  if payload.length > MAX_BRIDGE_FRAME_BYTES then
    .error ("bridge frame too large: " ++ toString payload.length)
  else .ok (u32beL payload.length ++ payload)

/-- Wire bytes produced by `write_bridge_chunk_frame_with_type`: u32 BE
length header, version, frame type, u32 BE inner chunk length, chunk. -/
def write_bridge_chunk_frame_bytes (ftype : Nat) (chunk : List Nat) :
    Except String (List Nat) :=
  if chunk.length ≥ 4294967296 then
    .error "bridge chunk length does not fit u32"
  else if 6 + chunk.length > MAX_BRIDGE_FRAME_BYTES then
    .error ("bridge frame too large: " ++ toString (6 + chunk.length))
  else .ok (u32beL (6 + chunk.length) ++ [BRIDGE_PROTOCOL_VERSION, ftype] ++
    u32beL chunk.length ++ chunk)

/-! ### Derived payload constructors and helpers used by the theorems -/

/-- The frame payload `write_bridge_request_chunk_frame` emits for one
64 KiB-or-smaller piece. -/
def chunkFramePayload (c : List Nat) : List Nat :=
  [BRIDGE_PROTOCOL_VERSION, BRIDGE_REQUEST_CHUNK_FRAME_TYPE] ++
    u32beL c.length ++ c

/-- A response-chunk frame payload carrying chunk `c`. -/
def mkRespChunkFrame (c : List Nat) : List Nat :=
  [BRIDGE_PROTOCOL_VERSION, BRIDGE_RESPONSE_CHUNK_FRAME_TYPE] ++
    u32beL c.length ++ c

/-- A response-chunk frame payload carrying an empty chunk. -/
def emptyChunkFramePayload : List Nat := mkRespChunkFrame []

/-- A response-end frame payload. -/
def respEndFrame : List Nat :=
  [BRIDGE_PROTOCOL_VERSION, BRIDGE_RESPONSE_END_FRAME_TYPE]

/-- The chunks successfully delivered to the HTTP body channel. -/
def okSends (l : List (Except String (List Nat))) : List (List Nat) :=
  l.filterMap fun x => match x with | .ok c => some c | .error _ => none

/-- u32 BE length prefix followed by the bytes. -/
def mkLenPref (bs : List Nat) : List Nat := u32beL bs.length ++ bs

/-- Wire bytes of a header list: length-prefixed name then length-prefixed
value per pair (literal, non-tokenized form). -/
def headerBlob (hs : List (List Nat × List Nat)) : List Nat :=
  hs.foldr (fun h acc => mkLenPref h.1 ++ (mkLenPref h.2 ++ acc)) []

/-- A literal single-frame response payload (type 2). -/
def mkRespSinglePayload (status : Nat) (hs : List (List Nat × List Nat))
    (body : List Nat) : List Nat :=
  [BRIDGE_PROTOCOL_VERSION, BRIDGE_RESPONSE_FRAME_TYPE] ++ u16beL status ++
    u32beL hs.length ++ headerBlob hs ++ mkLenPref body

/-- A literal response-start payload (type 6). -/
def mkRespStartPayload (status : Nat) (hs : List (List Nat × List Nat)) :
    List Nat :=
  [BRIDGE_PROTOCOL_VERSION, BRIDGE_RESPONSE_START_FRAME_TYPE] ++
    u16beL status ++ u32beL hs.length ++ headerBlob hs

/-- The header-pair filter the decoders implement: keep a pair iff its name
parses as an HTTP header name (normalized) and its value is a valid HTTP
header value. -/
def validHeaderPair (h : List Nat × List Nat) :
    Option (List Nat × List Nat) :=
  match headerNameFromBytes h.1 with
  | none => none
  | some n => if headerValueIsValid h.2 then some (n, h.2) else none

/-- The unconsumed remainder of a reader. -/
def Rd.rem (r : Rd) : List Nat := r.bytes.drop r.off

/-- A simple request descriptor used to instantiate scenario theorems. -/
def sampleReq : BridgeRequestRef := ⟨"GET", "http", "h", "/ping", "", "1.1", []⟩

/-- Call environment where the first response-frame read fails with a hard
I/O error while the request body is known empty. -/
def c2envReadError : CallEnv :=
  { req := sampleReq
    stream := []
    knownEmpty := true
    mainFailAt := none
    mainConn := ⟨.error "read frame header failed: connection reset by peer",
      .ok ()⟩
    retryConnect := .ok ⟨.ok (some [1, 2]), .ok ()⟩
    retryFailAt := none }

/-- Call environment where the first response-frame read observes a clean
EOF while the request body is known empty (the retry scenario). -/
def c2envCleanEof : CallEnv :=
  { req := sampleReq
    stream := []
    knownEmpty := true
    mainFailAt := none
    mainConn := ⟨.ok none, .ok ()⟩
    retryConnect := .ok ⟨.ok (some [1, 2]), .ok ()⟩
    retryFailAt := none }

end Routed

open Routed

/-! ## Claim theorems -/

/-- C1 (counterexample): releasing into an empty pool a connection whose
read buffer has capacity `MAX_FRAME/2 + 1 = 33554433`, the next acquire
returns that pooled connection with its capacity unchanged — strictly
larger than the 8 KiB small default, contradicting the claim's bound. -/
theorem c1_pool_hygiene_counterexample :
    BridgePool.acquire
        (BridgePool.release ⟨256, none, []⟩ ⟨⟨33554433, 33554433⟩⟩) =
      (some ⟨⟨0, 33554433⟩⟩, ⟨256, none, []⟩) ∧
    ¬((33554433 : Nat) ≤ 8 * 1024) := by
  constructor
  · rfl
  · decide

/-- C1 (amended): the release-time hygiene threshold is `MAX_FRAME`, not
`MAX_FRAME/2`: releasing into an empty pool a connection whose buffer
capacity exceeds `MAX_BRIDGE_FRAME_BYTES`, the next acquire returns the
pooled connection with a fresh 8 KiB buffer; at or below `MAX_FRAME` the
buffer is only cleared and keeps its capacity. -/
theorem c1_pool_hygiene_amended (cap len maxIdle : Nat) :
    (MAX_BRIDGE_FRAME_BYTES < cap →
      BridgePool.acquire
          (BridgePool.release ⟨maxIdle, none, []⟩ ⟨⟨len, cap⟩⟩) =
        (some ⟨⟨0, 8 * 1024⟩⟩, ⟨maxIdle, none, []⟩)) ∧
    (cap ≤ MAX_BRIDGE_FRAME_BYTES →
      BridgePool.acquire
          (BridgePool.release ⟨maxIdle, none, []⟩ ⟨⟨len, cap⟩⟩) =
        (some ⟨⟨0, cap⟩⟩, ⟨maxIdle, none, []⟩)) := by
  constructor
  · intro h
    simp [BridgePool.release, releaseBufferHygiene, BridgePool.acquire, h]
  · intro h
    simp [BridgePool.release, releaseBufferHygiene, BridgePool.acquire,
      Nat.not_lt.mpr h]

/-- C1 (witness): the amended theorem applied at capacity
`MAX_FRAME + 1 = 67108865`. -/
theorem c1_pool_hygiene_amended_witness :
    BridgePool.acquire
        (BridgePool.release ⟨256, none, []⟩ ⟨⟨0, 67108865⟩⟩) =
      (some ⟨⟨0, 8 * 1024⟩⟩, ⟨256, none, []⟩) :=
  (c1_pool_hygiene_amended 67108865 0 256).1 (by decide)

/-- C4: `read_bridge_frame_reuse` returns "no frame" on EOF before any
header byte, errors on EOF after 1..3 header bytes, rejects a declared
length above `MAX_BRIDGE_FRAME_BYTES` independently of whatever payload
bytes follow the header (so before reading any payload byte), and
otherwise reads exactly the declared number of payload bytes into the
reuse buffer. -/
theorem c4_read_bridge_frame_reuse :
    (read_bridge_frame_reuse [] = .ok (none, [])) ∧
    (∀ input : List Nat, input ≠ [] → input.length < 4 →
      read_bridge_frame_reuse input =
        .error "bridge closed connection while reading frame header") ∧
    (∀ hdr rest : List Nat, hdr.length = 4 →
      MAX_BRIDGE_FRAME_BYTES < be32of (hdr ++ rest) →
      read_bridge_frame_reuse (hdr ++ rest) =
        .error ("bridge frame too large: " ++ toString (be32of (hdr ++ rest)))) ∧
    (∀ hdr rest : List Nat, hdr.length = 4 →
      be32of (hdr ++ rest) ≤ MAX_BRIDGE_FRAME_BYTES →
      be32of (hdr ++ rest) ≤ rest.length →
      read_bridge_frame_reuse (hdr ++ rest) =
        .ok (some (rest.take (be32of (hdr ++ rest))),
          rest.drop (be32of (hdr ++ rest)))) := by
  refine ⟨rfl, ?_, ?_, ?_⟩
  · intro input h1 h2
    unfold read_bridge_frame_reuse
    rw [if_neg h1, if_pos h2]
  · intro hdr rest h4 hbig
    have hne : hdr ++ rest ≠ [] := by
      intro hc
      have := congrArg List.length hc
      simp [h4] at this
    have hlen : ¬(hdr ++ rest).length < 4 := by
      simp [List.length_append, h4]
    unfold read_bridge_frame_reuse
    rw [if_neg hne, if_neg hlen, if_pos hbig]
  · intro hdr rest h4 hsmall hfits
    have hne : hdr ++ rest ≠ [] := by
      intro hc
      have := congrArg List.length hc
      simp [h4] at this
    have hlen : ¬(hdr ++ rest).length < 4 := by
      simp [List.length_append, h4]
    have hdropped : (hdr ++ rest).drop 4 = rest := by
      rw [← h4, List.drop_left]
    unfold read_bridge_frame_reuse
    rw [if_neg hne, if_neg hlen, if_neg (Nat.not_lt.mpr hsmall), hdropped,
      if_neg (Nat.not_lt.mpr hfits)]

/-- C4 (witness): the theorem applied at EOF-after-one-byte, an oversize
header, and a well-formed one-byte frame. -/
theorem c4_read_bridge_frame_reuse_witness :
    read_bridge_frame_reuse [0] =
      .error "bridge closed connection while reading frame header" ∧
    read_bridge_frame_reuse ([255, 255, 255, 255] ++ ([] : List Nat)) =
      .error ("bridge frame too large: " ++
        toString (be32of ([255, 255, 255, 255] ++ ([] : List Nat)))) ∧
    read_bridge_frame_reuse ([0, 0, 0, 1] ++ [7]) =
      .ok (some (([7] : List Nat).take (be32of ([0, 0, 0, 1] ++ [7]))),
        ([7] : List Nat).drop (be32of ([0, 0, 0, 1] ++ [7]))) :=
  ⟨c4_read_bridge_frame_reuse.2.1 [0] (by decide) (by decide),
   c4_read_bridge_frame_reuse.2.2.1 [255, 255, 255, 255] [] (by decide)
     (by decide),
   c4_read_bridge_frame_reuse.2.2.2 [0, 0, 0, 1] [7] (by decide) (by decide)
     (by decide)⟩


/-- Appending a payload through `pushToPending` updates exactly the looked-up
entry's queue. -/
theorem lookup_pushToPending (l : List (Nat × PendingEntry)) (id : Nat)
    (p : List Nat) (entry : PendingEntry) (h : l.lookup id = some entry) :
    (l.map fun e =>
        if e.1 = id then (e.1, PendingEntry.mk (e.2.queue ++ [p]) e.2.receiverOpen)
        else e).lookup id = some ⟨entry.queue ++ [p], entry.receiverOpen⟩ := by
  induction l with
  | nil => simp [List.lookup] at h
  | cons hd tl ih =>
    obtain ⟨k, v⟩ := hd
    simp only [List.map_cons]
    by_cases hk : k = id
    · have hbeq : (id == k) = true := by simp [beq_iff_eq, hk.symm]
      have h' : v = entry := by
        simp [List.lookup, hbeq] at h
        exact h
      have hcond : ((k, v).1 = id) := hk
      rw [if_pos hcond]
      simp [List.lookup, hbeq, h']
    · have hbeq : (id == k) = false := by
        simp [beq_iff_eq]
        exact fun hc => hk hc.symm
      have h' : List.lookup id tl = some entry := by
        simpa [List.lookup, hbeq] using h
      have hcond : ¬((k, v).1 = id) := hk
      rw [if_neg hcond]
      simp only [List.lookup, hbeq]
      exact ih h'

/-- C8: the push-response entry point returns 0 on invalid arguments (null
handle, null payload pointer, or no direct bridge configured) and when the
request id is not in the pending registry, leaving the registry unchanged;
it returns 1 exactly after appending the payload to the pending request's
inbound queue; `server_native_complete_direct_request` is an alias. -/
theorem c8_push_direct_response_frame (handleNull payloadNull : Bool)
    (bridge : Option DirectBridgeSt) (request_id : Nat) (payload : List Nat) :
    ((handleNull = true ∨ payloadNull = true ∨ bridge = none) →
      server_native_push_direct_response_frame handleNull payloadNull bridge
        request_id payload = (0, bridge)) ∧
    (∀ st : DirectBridgeSt, bridge = some st →
      st.pending.lookup request_id = none →
      server_native_push_direct_response_frame handleNull payloadNull bridge
        request_id payload = (0, some st)) ∧
    (∀ st entry, bridge = some st → handleNull = false → payloadNull = false →
      st.pending.lookup request_id = some entry → entry.receiverOpen = true →
      server_native_push_direct_response_frame handleNull payloadNull bridge
          request_id payload =
        (1, some (pushToPending st request_id payload)) ∧
      (pushToPending st request_id payload).pending.lookup request_id =
        some ⟨entry.queue ++ [payload], entry.receiverOpen⟩) ∧
    (server_native_complete_direct_request handleNull payloadNull bridge
        request_id payload =
      server_native_push_direct_response_frame handleNull payloadNull bridge
        request_id payload) := by
  refine ⟨?_, ?_, ?_, rfl⟩
  · rintro (h | h | h) <;>
      simp [server_native_push_direct_response_frame, h]
  · intro st hb hlook
    subst hb
    unfold server_native_push_direct_response_frame
    by_cases hn : handleNull = true ∨ payloadNull = true
    · rw [if_pos hn]
    · rw [if_neg hn]
      simp [hlook]
  · intro st entry hb hh hp hlook hopen
    subst hb
    constructor
    · unfold server_native_push_direct_response_frame
      rw [if_neg (by simp [hh, hp])]
      simp [hlook, hopen]
    · exact lookup_pushToPending st.pending request_id payload entry hlook

/-- C8 (witness): the theorem applied at a null handle, at an unknown id,
and at a pending id with an open receiver. -/
theorem c8_push_direct_response_frame_witness :
    server_native_push_direct_response_frame true false
        (some ⟨[(1, ⟨[], true⟩)]⟩) 1 [9] = (0, some ⟨[(1, ⟨[], true⟩)]⟩) ∧
    server_native_push_direct_response_frame false false
        (some ⟨[(1, ⟨[], true⟩)]⟩) 2 [9] = (0, some ⟨[(1, ⟨[], true⟩)]⟩) ∧
    (server_native_push_direct_response_frame false false
        (some ⟨[(1, ⟨[], true⟩)]⟩) 1 [9] =
      (1, some (pushToPending ⟨[(1, ⟨[], true⟩)]⟩ 1 [9])) ∧
    (pushToPending ⟨[(1, ⟨[], true⟩)]⟩ 1 [9]).pending.lookup 1 =
      some ⟨[] ++ [[9]], true⟩) :=
  ⟨(c8_push_direct_response_frame true false (some ⟨[(1, ⟨[], true⟩)]⟩) 1
      [9]).1 (Or.inl rfl),
   (c8_push_direct_response_frame false false (some ⟨[(1, ⟨[], true⟩)]⟩) 2
      [9]).2.1 _ rfl (by decide),
   (c8_push_direct_response_frame false false (some ⟨[(1, ⟨[], true⟩)]⟩) 1
      [9]).2.2.1 _ ⟨[], true⟩ rfl rfl rfl (by decide) rfl⟩

/-- `chunksOfFuel` ignores the fuel once it covers the list length. -/
theorem chunksOfFuel_congr : ∀ f1 f2 (l : List Nat), l.length ≤ f1 →
    l.length ≤ f2 → chunksOfFuel f1 l = chunksOfFuel f2 l := by
  intro f1
  induction f1 with
  | zero =>
    intro f2 l h1 _
    have : l = [] := by
      cases l with
      | nil => rfl
      | cons b bs => simp at h1
    subst this
    cases f2 <;> rfl
  | succ k ih =>
    intro f2 l h1 h2
    cases l with
    | nil => cases f2 <;> rfl
    | cons b bs =>
      cases f2 with
      | zero => simp at h2
      | succ m =>
        simp only [chunksOfFuel]
        congr 1
        apply ih
        · simp only [List.length_drop, List.length_cons,
            BRIDGE_BODY_CHUNK_BYTES] at *
          omega
        · simp only [List.length_drop, List.length_cons,
            BRIDGE_BODY_CHUNK_BYTES] at *
          omega

/-- The defining equation of `chunksOf`. -/
theorem chunksOf_eq (l : List Nat) :
    chunksOf l = if l = [] then []
      else l.take BRIDGE_BODY_CHUNK_BYTES ::
        chunksOf (l.drop BRIDGE_BODY_CHUNK_BYTES) := by
  cases l with
  | nil => rfl
  | cons b bs =>
    rw [if_neg (by simp)]
    show chunksOfFuel (b :: bs).length (b :: bs) = _
    simp only [List.length_cons, chunksOfFuel]
    congr 1
    apply chunksOfFuel_congr
    · simp only [List.length_drop, List.length_cons, BRIDGE_BODY_CHUNK_BYTES]
      omega
    · rfl

/-- Every piece `slice::chunks` yields is non-empty and at most 64 KiB. -/
theorem chunksOf_mem_bounded : ∀ (n : Nat) (l : List Nat), l.length ≤ n →
    ∀ p ∈ chunksOf l, p.length ≤ BRIDGE_BODY_CHUNK_BYTES ∧ p ≠ [] := by
  intro n
  induction n with
  | zero =>
    intro l hl
    have : l = [] := by
      cases l with
      | nil => rfl
      | cons b bs => simp at hl
    subst this
    simp [chunksOf, chunksOfFuel]
  | succ k ih =>
    intro l hl
    rw [chunksOf_eq]
    by_cases hne : l = []
    · rw [if_pos hne]
      simp
    · rw [if_neg hne]
      intro p hp
      have hpos : 0 < l.length := List.length_pos.mpr hne
      rcases List.mem_cons.mp hp with hp | hp
      · subst hp
        refine ⟨by simp [List.length_take], ?_⟩
        intro hc
        have hlen := congrArg List.length hc
        rw [List.length_take] at hlen
        simp only [BRIDGE_BODY_CHUNK_BYTES, List.length_nil] at hlen
        omega
      · refine ih (l.drop BRIDGE_BODY_CHUNK_BYTES)
          (by simp only [List.length_drop, BRIDGE_BODY_CHUNK_BYTES] at *; omega)
          p hp

/-- Every piece `slice::chunks` yields is non-empty and at most 64 KiB. -/
theorem chunksOf_mem (l : List Nat) :
    ∀ p ∈ chunksOf l, p.length ≤ BRIDGE_BODY_CHUNK_BYTES ∧ p ≠ [] :=
  chunksOf_mem_bounded l.length l (le_refl _)

/-- The chunk pieces reassemble to the original slice. -/
theorem chunksOf_flatten_bounded : ∀ (n : Nat) (l : List Nat), l.length ≤ n →
    (chunksOf l).foldr (· ++ ·) [] = l := by
  intro n
  induction n with
  | zero =>
    intro l hl
    have : l = [] := by
      cases l with
      | nil => rfl
      | cons b bs => simp at hl
    subst this
    simp [chunksOf, chunksOfFuel]
  | succ k ih =>
    intro l hl
    rw [chunksOf_eq]
    by_cases hne : l = []
    · rw [if_pos hne, hne]
      simp
    · rw [if_neg hne]
      have hpos : 0 < l.length := List.length_pos.mpr hne
      simp only [List.foldr_cons]
      rw [ih (l.drop BRIDGE_BODY_CHUNK_BYTES)
        (by simp only [List.length_drop, BRIDGE_BODY_CHUNK_BYTES] at *; omega)]
      exact List.take_append_drop _ l

/-- The chunk pieces reassemble to the original slice. -/
theorem chunksOf_flatten (l : List Nat) :
    (chunksOf l).foldr (· ++ ·) [] = l :=
  chunksOf_flatten_bounded l.length l (le_refl _)

/-- A non-empty slice yields at least one chunk piece. -/
theorem chunksOf_ne_nil (l : List Nat) (h : l ≠ []) : chunksOf l ≠ [] := by
  rw [chunksOf_eq, if_neg h]
  simp

/-- Inversion for the chunk-frame write loop: on success it appends exactly
one chunk frame per piece and preserves the failure script. -/
theorem writeChunksSeq_ok_shape (cs : List (List Nat)) :
    ∀ s s', writeChunksSeq s cs = .ok s' →
      s'.frames = s.frames ++ cs.map chunkFramePayload ∧
      s'.failAt = s.failAt ∧ s'.ops = s.ops + cs.length := by
  induction cs with
  | nil =>
    intro s s' h
    simp [writeChunksSeq] at h
    subst h
    simp
  | cons c rest ih =>
    intro s s' h
    simp only [writeChunksSeq] at h
    cases hw : write_bridge_request_chunk_frame s c with
    | error e =>
      rw [hw] at h
      cases h
    | ok s1 =>
      rw [hw] at h
      have hs1 : s1.frames = s.frames ++ [chunkFramePayload c] ∧
          s1.failAt = s.failAt ∧ s1.ops = s.ops + 1 := by
        unfold write_bridge_request_chunk_frame
          write_bridge_chunk_frame_with_type WSock.writeOp at hw
        split at hw
        · cases hw
        · split at hw
          · cases hw
          · split at hw
            · cases hw
            · cases hw
              simp [chunkFramePayload]
      obtain ⟨h1, h2, h3⟩ := ih s1 s' h
      refine ⟨?_, ?_, ?_⟩
      · rw [h1, hs1.1]
        simp
      · rw [h2, hs1.2.1]
      · rw [h3, hs1.2.2, List.length_cons]
        omega

/-- The chunk-frame write loop succeeds on a reliable socket when every
piece is at most 64 KiB. -/
theorem writeChunksSeq_ok (cs : List (List Nat)) :
    ∀ s : WSock, s.failAt = none →
      (∀ c ∈ cs, c.length ≤ BRIDGE_BODY_CHUNK_BYTES) →
      writeChunksSeq s cs =
        .ok ⟨s.frames ++ cs.map chunkFramePayload, none, s.ops + cs.length⟩ := by
  induction cs with
  | nil =>
    intro s hf _
    obtain ⟨fr, fa, op⟩ := s
    simp at hf
    subst hf
    simp [writeChunksSeq]
  | cons c rest ih =>
    intro s hf hsz
    have hc := hsz c (by simp)
    have hg1 : ¬(c.length ≥ 4294967296) := by
      simp [BRIDGE_BODY_CHUNK_BYTES] at hc
      omega
    have hg2 : ¬(6 + c.length > MAX_BRIDGE_FRAME_BYTES) := by
      simp [BRIDGE_BODY_CHUNK_BYTES] at hc
      simp [MAX_BRIDGE_FRAME_BYTES]
      omega
    have hg3 : ¬(s.failAt = some s.ops) := by
      rw [hf]
      simp
    have hw : write_bridge_request_chunk_frame s c =
        .ok ⟨s.frames ++ [chunkFramePayload c], none, s.ops + 1⟩ := by
      unfold write_bridge_request_chunk_frame write_bridge_chunk_frame_with_type
        WSock.writeOp
      rw [if_neg hg1, if_neg hg2, if_neg hg3, hf]
      simp [chunkFramePayload]
    simp only [writeChunksSeq, hw]
    have hrec := ih ⟨s.frames ++ [chunkFramePayload c], none, s.ops + 1⟩ rfl
      (fun c' hc' => hsz c' (by simp [hc']))
    rw [hrec]
    simp [List.append_assoc]
    omega

/-- C6: `write_bridge_request_body_chunk` tracks the cumulative body count
and fails before writing anything when the chunk would push the total past
MAX_BODY; otherwise it splits the chunk into non-empty frames of at most
BODY_CHUNK = 64 KiB each, whose payloads reassemble to the chunk. -/
theorem c6_request_body_chunk_limits (s : WSock) (chunk : List Nat)
    (total : Nat) :
    (MAX_PROXY_BODY_BYTES < total + chunk.length →
      write_bridge_request_body_chunk s chunk total =
        .error ("failed to read request body: body too large: " ++
          toString (total + chunk.length), s)) ∧
    (total + chunk.length ≤ MAX_PROXY_BODY_BYTES → s.failAt = none →
      write_bridge_request_body_chunk s chunk total =
        .ok (⟨s.frames ++ (chunksOf chunk).map chunkFramePayload, none,
          s.ops + (chunksOf chunk).length⟩, total + chunk.length)) ∧
    (∀ p ∈ chunksOf chunk, p.length ≤ BRIDGE_BODY_CHUNK_BYTES ∧ p ≠ []) ∧
    ((chunksOf chunk).foldr (· ++ ·) [] = chunk) ∧
    (chunk ≠ [] → chunksOf chunk ≠ []) := by
  refine ⟨?_, ?_, chunksOf_mem chunk, chunksOf_flatten chunk,
    chunksOf_ne_nil chunk⟩
  · intro h
    unfold write_bridge_request_body_chunk
    rw [if_pos h]
  · intro h hf
    unfold write_bridge_request_body_chunk
    rw [if_neg (Nat.not_lt.mpr h)]
    rw [writeChunksSeq_ok (chunksOf chunk) s hf
      (fun c hc => (chunksOf_mem chunk c hc).1)]

/-- C6 (witness): the theorem applied to a 3-byte chunk under the limit and
to a 1-byte chunk that would exceed MAX_BODY. -/
theorem c6_request_body_chunk_limits_witness :
    write_bridge_request_body_chunk ⟨[], none, 0⟩ [1, 2, 3] 0 =
      .ok (⟨([] : List (List Nat)) ++
          (chunksOf [1, 2, 3]).map chunkFramePayload, none,
        0 + (chunksOf [1, 2, 3]).length⟩, 0 + ([1, 2, 3] : List Nat).length) ∧
    write_bridge_request_body_chunk ⟨[], none, 0⟩ [1] MAX_PROXY_BODY_BYTES =
      .error ("failed to read request body: body too large: " ++
        toString (MAX_PROXY_BODY_BYTES + ([1] : List Nat).length),
        ⟨[], none, 0⟩) :=
  ⟨(c6_request_body_chunk_limits ⟨[], none, 0⟩ [1, 2, 3] 0).2.1 (by decide)
     rfl,
   (c6_request_body_chunk_limits ⟨[], none, 0⟩ [1] MAX_PROXY_BODY_BYTES).1
     (by decide)⟩

/-- `put_bytes` success appends the length prefix and the bytes. -/
theorem putBytes_ok (w bs w' : List Nat) (h : putBytes w bs = .ok w') :
    w' = w ++ (u32beL bs.length ++ bs) := by
  unfold putBytes at h
  split at h
  · cases h
  · cases h
    simp

/-- `put_string` success appends to the writer. -/
theorem putString_app (w : List Nat) (str : String) (w' : List Nat)
    (h : putString w str = .ok w') : ∃ t, w' = w ++ t := by
  unfold putString at h
  exact ⟨_, putBytes_ok w (strBytes str) w' h⟩

/-- The header loop only appends to the writer. -/
theorem encodeHeadersLoop_app (hs : List (String × List Nat)) :
    ∀ w c w' c', encodeHeadersLoop hs w c = .ok (w', c') →
      ∃ t, w' = w ++ t := by
  induction hs with
  | nil =>
    intro w c w' c' h
    simp [encodeHeadersLoop] at h
    exact ⟨[], by simp [h.1]⟩
  | cons hd tl ih =>
    obtain ⟨name, value⟩ := hd
    intro w c w' c' h
    simp only [encodeHeadersLoop] at h
    split at h
    · exact ih w c w' c' h
    · split at h
      · cases h
      · cases hn : write_bridge_header_name w name with
        | error e =>
          rw [hn] at h
          cases h
        | ok w1 =>
          rw [hn] at h
          dsimp only at h
          cases hv : putBytes w1 value with
          | error e =>
            rw [hv] at h
            cases h
          | ok w2 =>
            rw [hv] at h
            dsimp only at h
            obtain ⟨t, ht⟩ := ih w2 (c + 1) w' c' h
            have h1 : ∃ t1, w1 = w ++ t1 := by
              unfold write_bridge_header_name at hn
              cases htok : bridge_header_name_token name with
              | some token =>
                rw [htok] at hn
                cases hn
                exact ⟨_, rfl⟩
              | none =>
                rw [htok] at hn
                have h2 := putBytes_ok _ _ _ hn
                exact ⟨_, by rw [h2, List.append_assoc]⟩
            obtain ⟨t1, ht1⟩ := h1
            have h2 := putBytes_ok _ _ _ hv
            exact ⟨t1 ++ (u32beL value.length ++ value) ++ t,
              by rw [ht, h2, ht1]; simp⟩

/-- `encode_bridge_request_headers` only appends to the writer. -/
theorem encode_bridge_request_headers_app (w : List Nat)
    (hs : List (String × List Nat)) (w' : List Nat)
    (h : encode_bridge_request_headers w hs = .ok w') : ∃ t, w' = w ++ t := by
  unfold encode_bridge_request_headers at h
  split at h
  · cases h
    exact ⟨_, rfl⟩
  · cases hl : encodeHeadersLoop hs (w ++ u32beL 0) 0 with
    | error e =>
      rw [hl] at h
      cases h
    | ok wc =>
      rw [hl] at h
      cases h
      obtain ⟨t, ht⟩ := encodeHeadersLoop_app hs _ _ _ _ hl
      have e1 : ((w ++ u32beL 0) ++ t).take w.length = w := by
        rw [List.append_assoc, List.take_left]
      have e2 : ((w ++ u32beL 0) ++ t).drop (w.length + 4) = t := by
        have hlen : w.length + 4 = (w ++ u32beL 0).length := by
          simp [List.length_append, u32beL]
        rw [hlen, List.drop_left]
      refine ⟨u32beL wc.2 ++ t, ?_⟩
      rw [patchU32, ht, e1, e2, List.append_assoc]

/-- `encodeReqHead` success yields version byte, frame type byte, then the
URI fields. -/
theorem encodeReqHead_shape (ft : Nat) (req : BridgeRequestRef)
    (w : List Nat) (h : encodeReqHead ft req = .ok w) :
    ∃ t, w = BRIDGE_PROTOCOL_VERSION :: ft :: t := by
  unfold encodeReqHead at h
  cases h1 : putString [BRIDGE_PROTOCOL_VERSION, ft] req.method with
  | error e => rw [h1] at h; cases h
  | ok w1 =>
    rw [h1] at h
    dsimp only at h
    cases h2 : putString w1 req.scheme with
    | error e => rw [h2] at h; cases h
    | ok w2 =>
      rw [h2] at h
      dsimp only at h
      cases h3 : putString w2 req.authority with
      | error e => rw [h3] at h; cases h
      | ok w3 =>
        rw [h3] at h
        dsimp only at h
        cases h4 : putString w3 req.path with
        | error e => rw [h4] at h; cases h
        | ok w4 =>
          rw [h4] at h
          dsimp only at h
          cases h5 : putString w4 req.query with
          | error e => rw [h5] at h; cases h
          | ok w5 =>
            rw [h5] at h
            dsimp only at h
            obtain ⟨t1, e1⟩ := putString_app _ _ _ h1
            obtain ⟨t2, e2⟩ := putString_app _ _ _ h2
            obtain ⟨t3, e3⟩ := putString_app _ _ _ h3
            obtain ⟨t4, e4⟩ := putString_app _ _ _ h4
            obtain ⟨t5, e5⟩ := putString_app _ _ _ h5
            obtain ⟨t6, e6⟩ := putString_app _ _ _ h
            refine ⟨t1 ++ t2 ++ t3 ++ t4 ++ t5 ++ t6, ?_⟩
            rw [e6, e5, e4, e3, e2, e1]
            simp

/-- `encode_bridge_request` success yields a payload whose first two bytes
are the version and the tokenized single-frame request type 11. -/
theorem encode_bridge_request_shape (req : BridgeRequestRef)
    (body p : List Nat) (h : encode_bridge_request req body = .ok p) :
    ∃ t, p = BRIDGE_PROTOCOL_VERSION ::
      BRIDGE_REQUEST_FRAME_TYPE_TOKENIZED :: t := by
  unfold encode_bridge_request at h
  cases h1 : encodeReqHead BRIDGE_REQUEST_FRAME_TYPE_TOKENIZED req with
  | error e => rw [h1] at h; cases h
  | ok w =>
    rw [h1] at h
    dsimp only at h
    cases h2 : encode_bridge_request_headers w req.headers with
    | error e => rw [h2] at h; cases h
    | ok w2 =>
      rw [h2] at h
      dsimp only at h
      obtain ⟨t1, e1⟩ := encodeReqHead_shape _ _ _ h1
      obtain ⟨t2, e2⟩ := encode_bridge_request_headers_app _ _ _ h2
      have e3 := putBytes_ok _ _ _ h
      refine ⟨t1 ++ t2 ++ (u32beL body.length ++ body), ?_⟩
      rw [e3, e2, e1]
      simp

/-- `encode_bridge_request_start` success yields a payload whose first two
bytes are the version and the tokenized request-start type 13. -/
theorem encode_bridge_request_start_shape (req : BridgeRequestRef)
    (p : List Nat) (h : encode_bridge_request_start req = .ok p) :
    ∃ t, p = BRIDGE_PROTOCOL_VERSION ::
      BRIDGE_REQUEST_START_FRAME_TYPE_TOKENIZED :: t := by
  unfold encode_bridge_request_start at h
  cases h1 : encodeReqHead BRIDGE_REQUEST_START_FRAME_TYPE_TOKENIZED req with
  | error e => rw [h1] at h; cases h
  | ok w =>
    rw [h1] at h
    dsimp only at h
    obtain ⟨t1, e1⟩ := encodeReqHead_shape _ _ _ h1
    obtain ⟨t2, e2⟩ := encode_bridge_request_headers_app _ _ _ h
    refine ⟨t1 ++ t2, ?_⟩
    rw [e2, e1]
    simp

/-- Inversion for one logical body chunk write. -/
theorem write_body_chunk_ok_shape (s : WSock) (c : List Nat) (t : Nat)
    (s' : WSock) (t' : Nat)
    (h : write_bridge_request_body_chunk s c t = .ok (s', t')) :
    s'.frames = s.frames ++ (chunksOf c).map chunkFramePayload ∧
    s'.failAt = s.failAt ∧ t' = t + c.length := by
  unfold write_bridge_request_body_chunk at h
  dsimp only at h
  by_cases hlim : t + c.length > MAX_PROXY_BODY_BYTES
  · rw [if_pos hlim] at h
    cases h
  · rw [if_neg hlim] at h
    cases hw : writeChunksSeq s (chunksOf c) with
    | error e =>
      rw [hw] at h
      simp at h
    | ok s2 =>
      rw [hw] at h
      dsimp only at h
      cases h
      obtain ⟨h1, h2, _⟩ := writeChunksSeq_ok_shape _ _ _ hw
      exact ⟨h1, h2, rfl⟩

/-- `pullFirstNonEmpty` only returns non-empty chunks. -/
theorem pullFirstNonEmpty_some (stream : List BodyItem) :
    ∀ c rest, pullFirstNonEmpty stream = .ok (some (c, rest)) → c ≠ [] := by
  induction stream with
  | nil =>
    intro c rest h
    simp [pullFirstNonEmpty] at h
  | cons item tl ih =>
    intro c rest h
    cases item with
    | fail msg => simp [pullFirstNonEmpty] at h
    | chunk cb =>
      simp only [pullFirstNonEmpty] at h
      split at h
      · exact ih c rest h
      · rename_i hcb
        simp at h
        obtain ⟨h1, _⟩ := h
        subst h1
        exact hcb

/-- Inversion for the trailing body-chunk loop: on success it appends only
chunk frames built from non-empty pieces. -/
theorem processRemainingChunks_ok_shape (items : List BodyItem) :
    ∀ (s : WSock) (t : Nat) (s' : WSock) (t' : Nat),
      processRemainingChunks s t items = .ok (s', t') →
      ∃ pieces : List (List Nat),
        s'.frames = s.frames ++ pieces.map chunkFramePayload ∧
        (∀ p ∈ pieces, p ≠ []) ∧ s'.failAt = s.failAt := by
  induction items with
  | nil =>
    intro s t s' t' h
    simp only [processRemainingChunks] at h
    cases h
    exact ⟨[], by simp, by simp, rfl⟩
  | cons item tl ih =>
    intro s t s' t' h
    cases item with
    | fail msg => simp [processRemainingChunks] at h
    | chunk cb =>
      simp only [processRemainingChunks] at h
      split at h
      · exact ih s t s' t' h
      · cases hw : write_bridge_request_body_chunk s cb t with
        | error e =>
          rw [hw] at h
          cases h
        | ok st2 =>
          obtain ⟨s2, t2⟩ := st2
          rw [hw] at h
          dsimp only at h
          obtain ⟨h1, h2, _⟩ := write_body_chunk_ok_shape _ _ _ _ _ hw
          obtain ⟨pieces, hp1, hp2, hp3⟩ := ih s2 t2 s' t' h
          refine ⟨chunksOf cb ++ pieces, ?_, ?_, ?_⟩
          · rw [hp1, h1]
            simp [List.append_assoc]
          · intro p hp
            rcases List.mem_append.mp hp with hp | hp
            · exact (chunksOf_mem cb p hp).2
            · exact hp2 p hp
          · rw [hp3, h2]

/-- Definitional unfolding of the known-empty branch. -/
theorem write_bridge_request_true_eq (s : WSock) (req : BridgeRequestRef)
    (stream : List BodyItem) :
    write_bridge_request s req stream true =
      (write_bridge_empty_request s req, true) := rfl

/-- C5: on a reliable socket, a known-empty body emits exactly one
single-frame request with empty inline body; a body stream that ends
without a non-empty chunk emits the same single frame; once a non-empty
chunk is observed the emitted sequence is exactly one start frame, one or
more chunk frames, then one end frame. -/
theorem c5_request_frame_forms (req : BridgeRequestRef)
    (stream : List BodyItem) :
    (∀ s', (write_bridge_request ⟨[], none, 0⟩ req stream true).1 = .ok s' →
      (write_bridge_request ⟨[], none, 0⟩ req stream true).2 = true ∧
      ∃ p, encode_bridge_request req [] = .ok p ∧ s'.frames = [p]) ∧
    (pullFirstNonEmpty stream = .ok none →
      ∀ s', (write_bridge_request ⟨[], none, 0⟩ req stream false).1 = .ok s' →
        (write_bridge_request ⟨[], none, 0⟩ req stream false).2 = true ∧
        ∃ p, encode_bridge_request req [] = .ok p ∧ s'.frames = [p]) ∧
    (∀ c rest, pullFirstNonEmpty stream = .ok (some (c, rest)) →
      (write_bridge_request ⟨[], none, 0⟩ req stream false).2 = false ∧
      ∀ s', (write_bridge_request ⟨[], none, 0⟩ req stream false).1 = .ok s' →
        ∃ startP middle, encode_bridge_request_start req = .ok startP ∧
          s'.frames = startP :: (middle ++ [encode_bridge_request_end]) ∧
          middle ≠ [] ∧
          ∀ f ∈ middle, ∃ cc, f = chunkFramePayload cc ∧ cc ≠ []) := by
  have hempty : ∀ s', write_bridge_empty_request ⟨[], none, 0⟩ req = .ok s' →
      ∃ p, encode_bridge_request req [] = .ok p ∧ s'.frames = [p] := by
    intro s' h
    unfold write_bridge_empty_request at h
    cases henc : encode_bridge_request req [] with
    | error e =>
      rw [henc] at h
      simp at h
    | ok p =>
      rw [henc] at h
      dsimp only at h
      unfold write_bridge_frame WSock.writeOp at h
      by_cases hsz : p.length > MAX_BRIDGE_FRAME_BYTES
      · rw [if_pos hsz] at h
        simp at h
      · rw [if_neg hsz] at h
        rw [if_neg (show ¬((⟨[], none, 0⟩ : WSock).failAt =
            some (⟨[], none, 0⟩ : WSock).ops) by simp)] at h
        cases h
        exact ⟨p, rfl, by simp⟩
  refine ⟨?_, ?_, ?_⟩
  · intro s' h
    rw [write_bridge_request_true_eq] at h ⊢
    exact ⟨rfl, hempty s' h⟩
  · intro hpull s' h
    have hw : write_bridge_request ⟨[], none, 0⟩ req stream false =
        (write_bridge_empty_request ⟨[], none, 0⟩ req, true) := by
      unfold write_bridge_request
      rw [hpull]
      rfl
    rw [hw] at h ⊢
    exact ⟨rfl, hempty s' h⟩
  · intro c rest hpull
    have hcne : c ≠ [] := pullFirstNonEmpty_some stream c rest hpull
    have hw : write_bridge_request ⟨[], none, 0⟩ req stream false =
        (match encode_bridge_request_start req with
         | .error e => .error (e, (⟨[], none, 0⟩ : WSock))
         | .ok startP =>
           match write_bridge_frame ⟨[], none, 0⟩ startP with
           | .error e => .error e
           | .ok s1 =>
             match write_bridge_request_body_chunk s1 c 0 with
             | .error e => .error e
             | .ok (s2, t) =>
               match processRemainingChunks s2 t rest with
               | .error e => .error e
               | .ok (s3, _) =>
                 write_bridge_frame s3 encode_bridge_request_end,
         false) := by
      unfold write_bridge_request
      rw [hpull]
      rfl
    refine ⟨by rw [hw], ?_⟩
    intro s' h
    rw [hw] at h
    dsimp only at h
    cases henc : encode_bridge_request_start req with
    | error e =>
      rw [henc] at h
      simp at h
    | ok startP =>
      rw [henc] at h
      dsimp only at h
      cases hwf : write_bridge_frame ⟨[], none, 0⟩ startP with
      | error e =>
        rw [hwf] at h
        simp at h
      | ok s1 =>
        rw [hwf] at h
        dsimp only at h
        have hs1 : s1 = ⟨[startP], none, 1⟩ := by
          unfold write_bridge_frame WSock.writeOp at hwf
          by_cases hsz : startP.length > MAX_BRIDGE_FRAME_BYTES
          · rw [if_pos hsz] at hwf
            simp at hwf
          · rw [if_neg hsz] at hwf
            rw [if_neg (show ¬((⟨[], none, 0⟩ : WSock).failAt =
                some (⟨[], none, 0⟩ : WSock).ops) by simp)] at hwf
            cases hwf
            rfl
        subst hs1
        cases hbc : write_bridge_request_body_chunk ⟨[startP], none, 1⟩ c 0 with
        | error e =>
          rw [hbc] at h
          simp at h
        | ok st2 =>
          obtain ⟨s2, t2⟩ := st2
          rw [hbc] at h
          dsimp only at h
          obtain ⟨hf2, hfa2, _⟩ := write_body_chunk_ok_shape _ _ _ _ _ hbc
          cases hpr : processRemainingChunks s2 t2 rest with
          | error e =>
            rw [hpr] at h
            simp at h
          | ok st3 =>
            obtain ⟨s3, t3⟩ := st3
            rw [hpr] at h
            dsimp only at h
            obtain ⟨pieces, hf3, hpne, hfa3⟩ :=
              processRemainingChunks_ok_shape rest _ _ _ _ hpr
            have hfa : s3.failAt = none := by
              rw [hfa3, hfa2]
            unfold write_bridge_frame WSock.writeOp at h
            rw [if_neg (show ¬(encode_bridge_request_end.length >
              MAX_BRIDGE_FRAME_BYTES) by decide)] at h
            rw [if_neg (show ¬(s3.failAt = some s3.ops) by rw [hfa]; simp)] at h
            cases h
            refine ⟨startP,
              (chunksOf c).map chunkFramePayload ++
                pieces.map chunkFramePayload, rfl, ?_, ?_, ?_⟩
            · rw [hf3, hf2]
              simp [List.append_assoc]
            · have := chunksOf_ne_nil c hcne
              simp [this]
            · intro f hf
              rcases List.mem_append.mp hf with hf | hf
              · obtain ⟨cc, hcc, hfe⟩ := List.mem_map.mp hf
                exact ⟨cc, hfe.symm, (chunksOf_mem c cc hcc).2⟩
              · obtain ⟨cc, hcc, hfe⟩ := List.mem_map.mp hf
                exact ⟨cc, hfe.symm, hpne cc hcc⟩

/-- C5 (witness): the known-empty conjunct applied to a concrete request,
and the streaming conjunct applied to a one-chunk body. -/
theorem c5_request_frame_forms_witness :
    (∃ s' : WSock,
      (write_bridge_request ⟨[], none, 0⟩ sampleReq [] true).1 = .ok s' ∧
      ((write_bridge_request ⟨[], none, 0⟩ sampleReq [] true).2 = true ∧
       ∃ p, encode_bridge_request sampleReq [] = .ok p ∧ s'.frames = [p])) ∧
    (∃ s' : WSock,
      (write_bridge_request ⟨[], none, 0⟩ sampleReq [.chunk [97]] false).1 =
        .ok s' ∧
      ∃ startP middle, encode_bridge_request_start sampleReq = .ok startP ∧
        s'.frames = startP :: (middle ++ [encode_bridge_request_end]) ∧
        middle ≠ [] ∧
        ∀ f ∈ middle, ∃ cc, f = chunkFramePayload cc ∧ cc ≠ []) := by
  constructor
  · refine ⟨_, rfl, ?_⟩
    exact (c5_request_frame_forms sampleReq []).1 _ rfl
  · refine ⟨_, rfl, ?_⟩
    exact ((c5_request_frame_forms sampleReq [.chunk [97]]).2.2 [97] []
      rfl).2 _ rfl

/-- Unfolding of `write_bridge_request` when the body pull errors. -/
theorem write_bridge_request_pull_err (s : WSock) (req : BridgeRequestRef)
    (stream : List BodyItem) (e : String)
    (hpull : pullFirstNonEmpty stream = .error e) :
    write_bridge_request s req stream false = (.error (e, s), true) := by
  unfold write_bridge_request
  rw [hpull]
  rfl

/-- Unfolding of `write_bridge_request` when the body stream has no
non-empty chunk. -/
theorem write_bridge_request_pull_none (s : WSock) (req : BridgeRequestRef)
    (stream : List BodyItem) (hpull : pullFirstNonEmpty stream = .ok none) :
    write_bridge_request s req stream false =
      (write_bridge_empty_request s req, true) := by
  unfold write_bridge_request
  rw [hpull]
  rfl

/-- The streaming branch reports a non-empty body. -/
theorem write_bridge_request_pull_some_flag (s : WSock)
    (req : BridgeRequestRef) (stream : List BodyItem) (c : List Nat)
    (rest : List BodyItem)
    (hpull : pullFirstNonEmpty stream = .ok (some (c, rest))) :
    (write_bridge_request s req stream false).2 = false := by
  unfold write_bridge_request
  rw [hpull]
  rfl

/-- Inversion of the single-frame empty-request write: on failure the
socket is untouched; on success exactly one frame is appended and it is
the tokenized single-frame request (type byte 11), not a chunk frame. -/
theorem write_bridge_empty_request_frames (s : WSock)
    (req : BridgeRequestRef) :
    (∀ e sF, write_bridge_empty_request s req = .error (e, sF) → sF = s) ∧
    (∀ s', write_bridge_empty_request s req = .ok s' →
      ∃ p, encode_bridge_request req [] = .ok p ∧
        s'.frames = s.frames ++ [p] ∧
        p.getD 1 0 = BRIDGE_REQUEST_FRAME_TYPE_TOKENIZED) := by
  constructor
  · intro e sF h
    unfold write_bridge_empty_request at h
    cases henc : encode_bridge_request req [] with
    | error e2 =>
      rw [henc] at h
      dsimp only at h
      cases h
      rfl
    | ok p =>
      rw [henc] at h
      dsimp only at h
      unfold write_bridge_frame WSock.writeOp at h
      by_cases hsz : p.length > MAX_BRIDGE_FRAME_BYTES
      · rw [if_pos hsz] at h
        cases h
        rfl
      · rw [if_neg hsz] at h
        by_cases hfail : s.failAt = some s.ops
        · rw [if_pos hfail] at h
          cases h
          rfl
        · rw [if_neg hfail] at h
          simp at h
  · intro s' h
    unfold write_bridge_empty_request at h
    cases henc : encode_bridge_request req [] with
    | error e2 =>
      rw [henc] at h
      simp at h
    | ok p =>
      rw [henc] at h
      dsimp only at h
      unfold write_bridge_frame WSock.writeOp at h
      by_cases hsz : p.length > MAX_BRIDGE_FRAME_BYTES
      · rw [if_pos hsz] at h
        simp at h
      · rw [if_neg hsz] at h
        by_cases hfail : s.failAt = some s.ops
        · rw [if_pos hfail] at h
          simp at h
        · rw [if_neg hfail] at h
          cases h
          obtain ⟨t, ht⟩ := encode_bridge_request_shape req [] p henc
          exact ⟨p, rfl, rfl, by rw [ht]; rfl⟩

/-- When `write_bridge_request` reports an empty body, the socket gained at
most the one single-frame request (never a chunk frame). -/
theorem write_request_bodyEmpty_frames (s0 : WSock) (req : BridgeRequestRef)
    (stream : List BodyItem) (known : Bool)
    (h2 : (write_bridge_request s0 req stream known).2 = true) :
    (∀ e sF, (write_bridge_request s0 req stream known).1 = .error (e, sF) →
      sF = s0) ∧
    (∀ s', (write_bridge_request s0 req stream known).1 = .ok s' →
      ∃ p, s'.frames = s0.frames ++ [p] ∧
        p.getD 1 0 = BRIDGE_REQUEST_FRAME_TYPE_TOKENIZED) := by
  cases known with
  | true =>
    rw [write_bridge_request_true_eq]
    exact ⟨fun e sF h => (write_bridge_empty_request_frames s0 req).1 e sF h,
      fun s' h =>
        let ⟨p, _, hf, hb⟩ := (write_bridge_empty_request_frames s0 req).2 s' h
        ⟨p, hf, hb⟩⟩
  | false =>
    cases hpull : pullFirstNonEmpty stream with
    | error e =>
      rw [write_bridge_request_pull_err s0 req stream e hpull]
      constructor
      · intro e' sF h
        cases h
        rfl
      · intro s' h
        simp at h
    | ok firstOpt =>
      cases firstOpt with
      | none =>
        rw [write_bridge_request_pull_none s0 req stream hpull]
        exact ⟨fun e sF h => (write_bridge_empty_request_frames s0 req).1 e sF h,
          fun s' h =>
            let ⟨p, _, hf, hb⟩ := (write_bridge_empty_request_frames s0 req).2 s' h
            ⟨p, hf, hb⟩⟩
      | some cr =>
        obtain ⟨c, rest⟩ := cr
        rw [write_bridge_request_pull_some_flag s0 req stream c rest hpull] at h2
        cases h2

/-- The retry path's socket either wrote nothing or wrote exactly the
single-frame empty request. -/
theorem retry_frames_shape (env : CallEnv) :
    (call_bridge_retry_empty_body env).2 = [] ∨
    ∃ p, encode_bridge_request env.req [] = .ok p ∧
      (call_bridge_retry_empty_body env).2 = [p] := by
  unfold call_bridge_retry_empty_body
  cases hc : env.retryConnect with
  | error e => exact Or.inl rfl
  | ok conn =>
    dsimp only
    cases hw : write_bridge_empty_request ⟨[], env.retryFailAt, 0⟩ env.req with
    | error esF =>
      obtain ⟨e, sF⟩ := esF
      have := (write_bridge_empty_request_frames ⟨[], env.retryFailAt, 0⟩
        env.req).1 e sF hw
      subst this
      exact Or.inl rfl
    | ok s1 =>
      obtain ⟨p, henc, hf, _⟩ :=
        (write_bridge_empty_request_frames ⟨[], env.retryFailAt, 0⟩
          env.req).2 s1 hw
      dsimp only
      cases conn.firstRead with
      | error e => exact Or.inr ⟨p, henc, by simpa using hf⟩
      | ok fr =>
        cases fr with
        | none => exact Or.inr ⟨p, henc, by simpa using hf⟩
        | some frp => exact Or.inr ⟨p, henc, by simpa using hf⟩

/-- Evaluation of `call_bridge` when the write failed with an empty body. -/
theorem call_bridge_eq_werr_true (env : CallEnv) (e : String) (sF : WSock)
    (hwr : write_bridge_request ⟨[], env.mainFailAt, 0⟩ env.req env.stream
      env.knownEmpty = (.error (e, sF), true)) :
    call_bridge env = ⟨(call_bridge_retry_empty_body env).1, 2, true,
      sF.frames, (call_bridge_retry_empty_body env).2⟩ := by
  simp only [call_bridge, hwr]
  rfl

/-- Evaluation of `call_bridge` when the write failed after a non-empty
chunk was observed. -/
theorem call_bridge_eq_werr_false (env : CallEnv) (e : String) (sF : WSock)
    (hwr : write_bridge_request ⟨[], env.mainFailAt, 0⟩ env.req env.stream
      env.knownEmpty = (.error (e, sF), false)) :
    call_bridge env = ⟨.error e, 1, false, sF.frames, []⟩ := by
  simp only [call_bridge, hwr]
  rfl

/-- Evaluation of `call_bridge` when the first read failed hard. -/
theorem call_bridge_eq_read_err (env : CallEnv) (s1 : WSock)
    (bodyEmpty : Bool) (e : String)
    (hwr : write_bridge_request ⟨[], env.mainFailAt, 0⟩ env.req env.stream
      env.knownEmpty = (.ok s1, bodyEmpty))
    (hre : env.mainConn.firstRead = .error e) :
    call_bridge env = ⟨.error e, 1, false, s1.frames, []⟩ := by
  simp only [call_bridge, hwr, hre]

/-- Evaluation of `call_bridge` on clean EOF with empty body. -/
theorem call_bridge_eq_eof_true (env : CallEnv) (s1 : WSock)
    (hwr : write_bridge_request ⟨[], env.mainFailAt, 0⟩ env.req env.stream
      env.knownEmpty = (.ok s1, true))
    (hre : env.mainConn.firstRead = .ok none) :
    call_bridge env = ⟨(call_bridge_retry_empty_body env).1, 2, true,
      s1.frames, (call_bridge_retry_empty_body env).2⟩ := by
  simp only [call_bridge, hwr, hre]
  rfl

/-- Evaluation of `call_bridge` on clean EOF with a non-empty body. -/
theorem call_bridge_eq_eof_false (env : CallEnv) (s1 : WSock)
    (hwr : write_bridge_request ⟨[], env.mainFailAt, 0⟩ env.req env.stream
      env.knownEmpty = (.ok s1, false))
    (hre : env.mainConn.firstRead = .ok none) :
    call_bridge env = ⟨.error "bridge closed connection without response",
      1, false, s1.frames, []⟩ := by
  simp only [call_bridge, hwr, hre]
  rfl

/-- Evaluation of `call_bridge` on decode success. -/
theorem call_bridge_eq_dec_ok (env : CallEnv) (s1 : WSock)
    (bodyEmpty : Bool) (fr : List Nat)
    (hwr : write_bridge_request ⟨[], env.mainFailAt, 0⟩ env.req env.stream
      env.knownEmpty = (.ok s1, bodyEmpty))
    (hre : env.mainConn.firstRead = .ok (some fr))
    (hd : env.mainConn.decodeRes = .ok ()) :
    call_bridge env = ⟨.ok (), 1, false, s1.frames, []⟩ := by
  simp only [call_bridge, hwr, hre, hd]

/-- Evaluation of `call_bridge` on decode failure with empty body. -/
theorem call_bridge_eq_dec_err_true (env : CallEnv) (s1 : WSock)
    (fr : List Nat) (e : String)
    (hwr : write_bridge_request ⟨[], env.mainFailAt, 0⟩ env.req env.stream
      env.knownEmpty = (.ok s1, true))
    (hre : env.mainConn.firstRead = .ok (some fr))
    (hd : env.mainConn.decodeRes = .error e) :
    call_bridge env = ⟨(call_bridge_retry_empty_body env).1, 2, true,
      s1.frames, (call_bridge_retry_empty_body env).2⟩ := by
  simp only [call_bridge, hwr, hre, hd]
  rfl

/-- Evaluation of `call_bridge` on decode failure with a non-empty body. -/
theorem call_bridge_eq_dec_err_false (env : CallEnv) (s1 : WSock)
    (fr : List Nat) (e : String)
    (hwr : write_bridge_request ⟨[], env.mainFailAt, 0⟩ env.req env.stream
      env.knownEmpty = (.ok s1, false))
    (hre : env.mainConn.firstRead = .ok (some fr))
    (hd : env.mainConn.decodeRes = .error e) :
    call_bridge env = ⟨.error e, 1, false, s1.frames, []⟩ := by
  simp only [call_bridge, hwr, hre, hd]
  rfl

/-- C2 (amended): the retry is keyed on the `request_body_empty` flag (no
non-empty body chunk observed), not on bytes emitted, and a hard read
error propagates without retry: the exchange retries exactly once, on a
fresh connection, with the single-frame empty form, exactly when the write
failed, the first read saw a clean EOF, or decoding failed, with the flag
still true; once a non-empty chunk was observed (in particular once any
body bytes were sent) no retry occurs and the error is returned. -/
theorem c2_retry_policy (env : CallEnv) :
    (∀ s1 bodyEmpty e,
      write_bridge_request ⟨[], env.mainFailAt, 0⟩ env.req env.stream
        env.knownEmpty = (.ok s1, bodyEmpty) →
      env.mainConn.firstRead = .error e →
      call_bridge env = ⟨.error e, 1, false, s1.frames, []⟩) ∧
    (∀ e sF bodyEmpty,
      write_bridge_request ⟨[], env.mainFailAt, 0⟩ env.req env.stream
        env.knownEmpty = (.error (e, sF), bodyEmpty) →
      (bodyEmpty = true → (call_bridge env).retried = true ∧
        (call_bridge env).attempts = 2) ∧
      (bodyEmpty = false →
        call_bridge env = ⟨.error e, 1, false, sF.frames, []⟩)) ∧
    (∀ s1 bodyEmpty,
      write_bridge_request ⟨[], env.mainFailAt, 0⟩ env.req env.stream
        env.knownEmpty = (.ok s1, bodyEmpty) →
      env.mainConn.firstRead = .ok none →
      (bodyEmpty = true → (call_bridge env).retried = true ∧
        (call_bridge env).attempts = 2) ∧
      (bodyEmpty = false →
        call_bridge env = ⟨.error "bridge closed connection without response",
          1, false, s1.frames, []⟩)) ∧
    (∀ s1 bodyEmpty fr e,
      write_bridge_request ⟨[], env.mainFailAt, 0⟩ env.req env.stream
        env.knownEmpty = (.ok s1, bodyEmpty) →
      env.mainConn.firstRead = .ok (some fr) →
      env.mainConn.decodeRes = .error e →
      (bodyEmpty = true → (call_bridge env).retried = true ∧
        (call_bridge env).attempts = 2) ∧
      (bodyEmpty = false →
        call_bridge env = ⟨.error e, 1, false, s1.frames, []⟩)) ∧
    ((call_bridge env).attempts ≤ 2 ∧
     ((call_bridge env).retried = false → (call_bridge env).attempts = 1 ∧
       (call_bridge env).retryFrames = []) ∧
     ((call_bridge env).retryFrames = [] ∨
      ∃ p, encode_bridge_request env.req [] = .ok p ∧
        (call_bridge env).retryFrames = [p])) ∧
    (∀ f ∈ (call_bridge env).mainFrames,
      f.getD 1 0 = BRIDGE_REQUEST_CHUNK_FRAME_TYPE →
      (call_bridge env).retried = false) := by
  have hmain : ∀ out : CallOut, call_bridge env = out →
      out.attempts ≤ 2 ∧
      (out.retried = false → out.attempts = 1 ∧ out.retryFrames = []) ∧
      (out.retryFrames = [] ∨
        ∃ p, encode_bridge_request env.req [] = .ok p ∧
          out.retryFrames = [p]) ∧
      (out.retried = true →
        (write_bridge_request ⟨[], env.mainFailAt, 0⟩ env.req env.stream
          env.knownEmpty).2 = true ∧
        (∀ e sF, (write_bridge_request ⟨[], env.mainFailAt, 0⟩ env.req
            env.stream env.knownEmpty).1 = .error (e, sF) →
          out.mainFrames = sF.frames) ∧
        (∀ s1, (write_bridge_request ⟨[], env.mainFailAt, 0⟩ env.req
            env.stream env.knownEmpty).1 = .ok s1 →
          out.mainFrames = s1.frames)) := by
    intro out hout
    cases hwr : write_bridge_request ⟨[], env.mainFailAt, 0⟩ env.req
        env.stream env.knownEmpty with
    | mk wres bodyEmpty =>
      cases wres with
      | error esF =>
        obtain ⟨e, sF⟩ := esF
        cases bodyEmpty with
        | true =>
          rw [call_bridge_eq_werr_true env e sF hwr] at hout
          subst hout
          refine ⟨by simp, by intro h; simp at h, retry_frames_shape env, ?_⟩
          intro _
          exact ⟨rfl, fun e' sF' h => by cases h; rfl,
            fun s1 h => (by cases h)⟩
        | false =>
          rw [call_bridge_eq_werr_false env e sF hwr] at hout
          subst hout
          exact ⟨by simp, fun _ => ⟨rfl, rfl⟩, Or.inl rfl,
            by intro h; simp at h⟩
      | ok s1 =>
        cases hread : env.mainConn.firstRead with
        | error e =>
          rw [call_bridge_eq_read_err env s1 bodyEmpty e hwr hread] at hout
          subst hout
          exact ⟨by simp, fun _ => ⟨rfl, rfl⟩, Or.inl rfl,
            by intro h; simp at h⟩
        | ok frOpt =>
          cases frOpt with
          | none =>
            cases bodyEmpty with
            | true =>
              rw [call_bridge_eq_eof_true env s1 hwr hread] at hout
              subst hout
              refine ⟨by simp, by intro h; simp at h, retry_frames_shape env,
                ?_⟩
              intro _
              exact ⟨rfl, fun e' sF' h => (by cases h),
                fun s1' h => by cases h; rfl⟩
            | false =>
              rw [call_bridge_eq_eof_false env s1 hwr hread] at hout
              subst hout
              exact ⟨by simp, fun _ => ⟨rfl, rfl⟩, Or.inl rfl,
                by intro h; simp at h⟩
          | some frp =>
            cases hdec : env.mainConn.decodeRes with
            | ok u =>
              obtain ⟨⟩ := u
              rw [call_bridge_eq_dec_ok env s1 bodyEmpty frp hwr hread hdec]
                at hout
              subst hout
              exact ⟨by simp, fun _ => ⟨rfl, rfl⟩, Or.inl rfl,
                by intro h; simp at h⟩
            | error e =>
              cases bodyEmpty with
              | true =>
                rw [call_bridge_eq_dec_err_true env s1 frp e hwr hread hdec]
                  at hout
                subst hout
                refine ⟨by simp, by intro h; simp at h,
                  retry_frames_shape env, ?_⟩
                intro _
                exact ⟨rfl, fun e' sF' h => (by cases h),
                  fun s1' h => by cases h; rfl⟩
              | false =>
                rw [call_bridge_eq_dec_err_false env s1 frp e hwr hread hdec]
                  at hout
                subst hout
                exact ⟨by simp, fun _ => ⟨rfl, rfl⟩, Or.inl rfl,
                  by intro h; simp at h⟩
  refine ⟨?_, ?_, ?_, ?_, ?_, ?_⟩
  · intro s1 bodyEmpty e hwr hread
    exact call_bridge_eq_read_err env s1 bodyEmpty e hwr hread
  · intro e sF bodyEmpty hwr
    constructor
    · intro hbe
      subst hbe
      rw [call_bridge_eq_werr_true env e sF hwr]
      exact ⟨rfl, rfl⟩
    · intro hbe
      subst hbe
      exact call_bridge_eq_werr_false env e sF hwr
  · intro s1 bodyEmpty hwr hread
    constructor
    · intro hbe
      subst hbe
      rw [call_bridge_eq_eof_true env s1 hwr hread]
      exact ⟨rfl, rfl⟩
    · intro hbe
      subst hbe
      exact call_bridge_eq_eof_false env s1 hwr hread
  · intro s1 bodyEmpty fr e hwr hread hdec
    constructor
    · intro hbe
      subst hbe
      rw [call_bridge_eq_dec_err_true env s1 fr e hwr hread hdec]
      exact ⟨rfl, rfl⟩
    · intro hbe
      subst hbe
      exact call_bridge_eq_dec_err_false env s1 fr e hwr hread hdec
  · have := hmain (call_bridge env) rfl
    exact ⟨this.1, this.2.1, this.2.2.1⟩
  · intro f hf hcf
    by_cases hret : (call_bridge env).retried = false
    · exact hret
    · exfalso
      have hr : (call_bridge env).retried = true := by
        cases hx : (call_bridge env).retried
        · exact absurd hx hret
        · rfl
      obtain ⟨hflag, herr, hok⟩ := (hmain (call_bridge env) rfl).2.2.2 hr
      have hfr := write_request_bodyEmpty_frames ⟨[], env.mainFailAt, 0⟩
        env.req env.stream env.knownEmpty hflag
      cases hx : (write_bridge_request ⟨[], env.mainFailAt, 0⟩ env.req
          env.stream env.knownEmpty).1 with
      | error esF =>
        obtain ⟨e, sF⟩ := esF
        have hsF := hfr.1 e sF hx
        subst hsF
        rw [herr e _ hx] at hf
        simp at hf
      | ok s1 =>
        obtain ⟨p, hfp, hb⟩ := hfr.2 s1 hx
        rw [hok s1 hx, hfp] at hf
        simp at hf
        subst hf
        rw [hb] at hcf
        simp [BRIDGE_REQUEST_FRAME_TYPE_TOKENIZED,
          BRIDGE_REQUEST_CHUNK_FRAME_TYPE] at hcf

/-- C2 (counterexample): with a known-empty request body and a main
connection whose first frame read fails with a hard I/O error, no request
body bytes were emitted (the one main frame is the single-frame request,
not a chunk frame), yet the exchange is NOT retried and the read error is
returned — the Rust `?` on `read_bridge_frame_reuse` propagates before the
empty-body retry check, contradicting the claim. -/
theorem c2_retry_counterexample :
    (call_bridge c2envReadError).retried = false ∧
    (call_bridge c2envReadError).attempts = 1 ∧
    (call_bridge c2envReadError).result =
      .error "read frame header failed: connection reset by peer" ∧
    ((call_bridge c2envReadError).mainFrames.all fun f =>
      !(f.getD 1 0 == BRIDGE_REQUEST_CHUNK_FRAME_TYPE)) = true := by
  exact ⟨rfl, rfl, rfl, rfl⟩

/-- C2 (witness): the amended theorem applied to the clean-EOF environment:
the retry runs exactly once. -/
theorem c2_retry_policy_witness :
    (call_bridge c2envCleanEof).retried = true ∧
    (call_bridge c2envCleanEof).attempts = 2 :=
  ((c2_retry_policy c2envCleanEof).2.2.1 _ _ rfl rfl).1 rfl

/-- `beVal` on a singleton. -/
theorem beVal_single (b : Nat) : beVal [b] = b % 256 := by
  simp [beVal]

/-- `beVal` inverts `u16beL` below 2^16. -/
theorem beVal_u16beL (v : Nat) (h : v < 65536) : beVal (u16beL v) = v := by
  simp [beVal, u16beL]
  omega

/-- `beVal` inverts `u32beL` below 2^32. -/
theorem beVal_u32beL (v : Nat) (h : v < 4294967296) :
    beVal (u32beL v) = v := by
  simp [beVal, u32beL]
  omega

/-- `get_exact` at a reader whose remainder starts with `mid`. -/
theorem Rd_getExact_rem (r : Rd) (mid suf : List Nat)
    (hr : r.rem = mid ++ suf) (hoff : r.off ≤ r.bytes.length) :
    r.getExact mid.length = .ok (mid, ⟨r.bytes, r.off + mid.length⟩) ∧
    (⟨r.bytes, r.off + mid.length⟩ : Rd).rem = suf ∧
    r.off + mid.length ≤ r.bytes.length := by
  unfold Rd.rem at hr
  have hlen : r.bytes.length - r.off = mid.length + suf.length := by
    have := congrArg List.length hr
    simpa [List.length_drop, List.length_append] using this
  have hb : r.off + mid.length ≤ r.bytes.length := by omega
  refine ⟨?_, ?_, hb⟩
  · unfold Rd.getExact
    rw [if_neg (by omega), hr, List.take_left]
  · unfold Rd.rem
    show r.bytes.drop (r.off + mid.length) = suf
    have hd : r.bytes.drop (r.off + mid.length) =
        (r.bytes.drop r.off).drop mid.length := by
      rw [List.drop_drop, Nat.add_comm]
    rw [hd, hr, List.drop_left]

/-- `get_u8` at a reader whose remainder starts with byte `b`. -/
theorem Rd_getU8_rem (r : Rd) (b : Nat) (suf : List Nat)
    (hr : r.rem = b :: suf) (hoff : r.off ≤ r.bytes.length) :
    r.getU8 = .ok (b % 256, ⟨r.bytes, r.off + 1⟩) ∧
    (⟨r.bytes, r.off + 1⟩ : Rd).rem = suf ∧
    r.off + 1 ≤ r.bytes.length := by
  obtain ⟨h1, h2, h3⟩ := Rd_getExact_rem r [b] suf (by simpa using hr) hoff
  refine ⟨?_, h2, h3⟩
  unfold Rd.getU8
  rw [show (1 : Nat) = ([b] : List Nat).length from rfl, h1]
  dsimp only
  rw [beVal_single]

/-- `get_u16` at a reader whose remainder starts with `u16beL v`. -/
theorem Rd_getU16_rem (r : Rd) (v : Nat) (suf : List Nat) (hv : v < 65536)
    (hr : r.rem = u16beL v ++ suf) (hoff : r.off ≤ r.bytes.length) :
    r.getU16 = .ok (v, ⟨r.bytes, r.off + 2⟩) ∧
    (⟨r.bytes, r.off + 2⟩ : Rd).rem = suf ∧
    r.off + 2 ≤ r.bytes.length := by
  obtain ⟨h1, h2, h3⟩ := Rd_getExact_rem r (u16beL v) suf hr hoff
  have hl : (u16beL v).length = 2 := rfl
  rw [hl] at h1 h2 h3
  refine ⟨?_, h2, h3⟩
  unfold Rd.getU16
  rw [h1]
  dsimp only
  rw [beVal_u16beL v hv]

/-- `get_u32` at a reader whose remainder starts with `u32beL v`. -/
theorem Rd_getU32_rem (r : Rd) (v : Nat) (suf : List Nat)
    (hv : v < 4294967296) (hr : r.rem = u32beL v ++ suf)
    (hoff : r.off ≤ r.bytes.length) :
    r.getU32 = .ok (v, ⟨r.bytes, r.off + 4⟩) ∧
    (⟨r.bytes, r.off + 4⟩ : Rd).rem = suf ∧
    r.off + 4 ≤ r.bytes.length := by
  obtain ⟨h1, h2, h3⟩ := Rd_getExact_rem r (u32beL v) suf hr hoff
  have hl : (u32beL v).length = 4 := rfl
  rw [hl] at h1 h2 h3
  refine ⟨?_, h2, h3⟩
  unfold Rd.getU32
  rw [h1]
  dsimp only
  rw [beVal_u32beL v hv]

/-- `get_bytes` at a reader whose remainder starts with a length-prefixed
field. -/
theorem Rd_getBytes_rem (r : Rd) (bs suf : List Nat)
    (hb : bs.length < 4294967296)
    (hr : r.rem = u32beL bs.length ++ (bs ++ suf))
    (hoff : r.off ≤ r.bytes.length) :
    r.getBytes = .ok (bs, ⟨r.bytes, r.off + 4 + bs.length⟩) ∧
    (⟨r.bytes, r.off + 4 + bs.length⟩ : Rd).rem = suf ∧
    r.off + 4 + bs.length ≤ r.bytes.length := by
  obtain ⟨h1, h2, h3⟩ := Rd_getU32_rem r bs.length (bs ++ suf) hb hr hoff
  obtain ⟨h4, h5, h6⟩ := Rd_getExact_rem ⟨r.bytes, r.off + 4⟩ bs suf h2 h3
  refine ⟨?_, by simpa [Nat.add_assoc] using h5, by simpa [Nat.add_assoc] using h6⟩
  unfold Rd.getBytes
  rw [h1]
  dsimp only
  dsimp only at h4
  rw [h4]

/-- `mapM` of a normalization that fixes every element. -/
theorem mapM_norm_self (bs : List Nat)
    (h : ∀ b ∈ bs, headerNameCharNorm b = some b) :
    bs.mapM headerNameCharNorm = some bs := by
  induction bs with
  | nil => rfl
  | cons b t ih =>
    rw [List.mapM_cons, h b (by simp), ih (fun x hx => h x (by simp [hx]))]
    rfl

/-- `HeaderName::from_bytes` is the identity on non-empty valid lowercase
names. -/
theorem headerNameFromBytes_self (bs : List Nat) (hne : bs ≠ [])
    (h : ∀ b ∈ bs, headerNameCharNorm b = some b) :
    headerNameFromBytes bs = some bs := by
  unfold headerNameFromBytes
  rw [if_neg hne]
  exact mapM_norm_self bs h

/-- C3: every name in the 29-entry token table round-trips bit-exactly
through tokenized encode and decode; an unlisted valid lowercase name is
emitted as the literal token 0xFFFF followed by the length-prefixed name,
and decoding recovers exactly that name, consuming the whole encoding. -/
theorem c3_header_name_round_trip :
    (∀ n ∈ bridgeTokenTableNames,
      ∃ w, write_bridge_header_name [] n = .ok w ∧
        decode_bridge_response_header_name ⟨w, 0⟩ true =
          .ok (some (strBytes n), ⟨w, w.length⟩)) ∧
    (∀ x : String, bridge_header_name_token x = none →
      strBytes x ≠ [] →
      (∀ b ∈ strBytes x, headerNameCharNorm b = some b) →
      (strBytes x).length < 4294967296 →
      write_bridge_header_name [] x =
        .ok ([255, 255] ++ u32beL (strBytes x).length ++ strBytes x) ∧
      ∃ rr : Rd,
        decode_bridge_response_header_name
            ⟨[255, 255] ++ u32beL (strBytes x).length ++ strBytes x, 0⟩ true =
          .ok (some (strBytes x), rr) ∧
        rr.off =
          ([255, 255] ++ u32beL (strBytes x).length ++ strBytes x).length) := by
  constructor
  · intro n hn
    fin_cases hn <;> exact ⟨_, rfl, rfl⟩
  · intro x htok hne hnorm hlen
    constructor
    · unfold write_bridge_header_name
      rw [htok]
      unfold putBytes
      rw [if_neg (by omega)]
      simp [BRIDGE_HEADER_NAME_LITERAL_TOKEN, u16beL]
    · obtain ⟨h1, h2, h3⟩ := Rd_getU16_rem
        ⟨[255, 255] ++ u32beL (strBytes x).length ++ strBytes x, 0⟩ 65535
        (u32beL (strBytes x).length ++ strBytes x) (by omega)
        (by simp [Rd.rem, u16beL]) (by simp)
      obtain ⟨h4, h5, h6⟩ := Rd_getBytes_rem
        ⟨[255, 255] ++ u32beL (strBytes x).length ++ strBytes x, 0 + 2⟩
        (strBytes x) [] hlen (by simpa using h2) h3
      refine ⟨⟨[255, 255] ++ u32beL (strBytes x).length ++ strBytes x,
        0 + 2 + 4 + (strBytes x).length⟩, ?_, ?_⟩
      · unfold decode_bridge_response_header_name
        rw [if_neg (show ¬((!true) = true) by simp)]
        rw [h1]
        dsimp only
        rw [if_pos (show (65535 : Nat) = BRIDGE_HEADER_NAME_LITERAL_TOKEN
          from rfl)]
        rw [h4]
        dsimp only
        rw [headerNameFromBytes_self (strBytes x) hne hnorm]
      · simp [List.length_append, u32beL]
        omega

/-- C3 (witness): the theorem applied to the table name "host" and the
unlisted name "x-custom". -/
theorem c3_header_name_round_trip_witness :
    (∃ w, write_bridge_header_name [] "host" = .ok w ∧
      decode_bridge_response_header_name ⟨w, 0⟩ true =
        .ok (some (strBytes "host"), ⟨w, w.length⟩)) ∧
    (write_bridge_header_name [] "x-custom" =
      .ok ([255, 255] ++ u32beL (strBytes "x-custom").length ++
        strBytes "x-custom") ∧
     ∃ rr : Rd,
       decode_bridge_response_header_name
          ⟨[255, 255] ++ u32beL (strBytes "x-custom").length ++
            strBytes "x-custom", 0⟩ true =
        .ok (some (strBytes "x-custom"), rr) ∧
       rr.off = ([255, 255] ++ u32beL (strBytes "x-custom").length ++
         strBytes "x-custom").length) :=
  ⟨c3_header_name_round_trip.1 "host" (by decide),
   c3_header_name_round_trip.2 "x-custom" (by decide) (by decide) (by decide)
     (by decide)⟩

/-- One step of the socket streaming loop on a read frame. -/
theorem streamSocketChunks_cons_ok (payload : List Nat)
    (rest : List (Except String (List Nat))) (total : Nat) :
    streamSocketChunks (.ok payload :: rest) total =
      (match peek_bridge_frame_type payload with
       | .error e => [.error e]
       | .ok ft =>
         if ft = BRIDGE_RESPONSE_CHUNK_FRAME_TYPE then
           match decode_bridge_response_chunk payload with
           | .error e => [.error e]
           | .ok chunk =>
             if chunk = [] then streamSocketChunks rest total
             else
               if total + chunk.length > MAX_PROXY_BODY_BYTES then
                 [.error ("bridge response body too large: " ++
                   toString (total + chunk.length))]
               else .ok chunk :: streamSocketChunks rest (total + chunk.length)
         else if ft = BRIDGE_RESPONSE_END_FRAME_TYPE then
           match decode_bridge_response_end payload with
           | .error e => [.error e]
           | .ok _ => []
         else [.error ("unexpected bridge response frame type: " ++
           toString ft)]) := rfl

/-- One step of the direct-callback streaming loop on a payload. -/
theorem streamDirectFrames_cons (payload : List Nat) (rest : List (List Nat)) :
    streamDirectFrames (payload :: rest) =
      (match peek_bridge_frame_type payload with
       | .error e => [.error ("decode response failed: " ++ e)]
       | .ok ft =>
         if ft = BRIDGE_RESPONSE_CHUNK_FRAME_TYPE then
           match decode_bridge_response_chunk payload with
           | .error e => [.error ("decode response failed: " ++ e)]
           | .ok chunk =>
             if chunk = [] then streamDirectFrames rest
             else .ok chunk :: streamDirectFrames rest
         else if ft = BRIDGE_RESPONSE_END_FRAME_TYPE then
           match decode_bridge_response_end payload with
           | .error e => [.error ("decode response failed: " ++ e)]
           | .ok _ => []
         else [.error ("decode response failed: unexpected bridge frame type: " ++
           toString ft)]) := rfl

/-- Peeking a constructed response-chunk frame yields type 7. -/
theorem peek_mkRespChunkFrame (c : List Nat) :
    peek_bridge_frame_type (mkRespChunkFrame c) =
      .ok BRIDGE_RESPONSE_CHUNK_FRAME_TYPE := by
  have hm : mkRespChunkFrame c = 1 :: 7 :: (u32beL c.length ++ c) := rfl
  rw [hm]
  unfold peek_bridge_frame_type
  rw [if_neg (by simp)]
  rw [if_neg (by simp [List.headD, is_supported_bridge_protocol_version,
    BRIDGE_PROTOCOL_VERSION, BRIDGE_PROTOCOL_VERSION_LEGACY])]
  rfl

/-- `ensure_done` succeeds when the cursor sits at the end. -/
theorem ensureDone_of_off_eq (bs : List Nat) (off : Nat)
    (h : off = bs.length) : Rd.ensureDone ⟨bs, off⟩ = .ok () := by
  unfold Rd.ensureDone
  rw [if_pos h]

/-- Decoding a constructed response-chunk frame returns the chunk. -/
theorem decode_chunk_mk (c : List Nat) (h : c.length < 4294967296) :
    decode_bridge_response_chunk (mkRespChunkFrame c) = .ok c := by
  obtain ⟨h1, h2, h3⟩ := Rd_getU8_rem ⟨mkRespChunkFrame c, 0⟩ 1
    (7 :: (u32beL c.length ++ c))
    (by simp [Rd.rem, mkRespChunkFrame, BRIDGE_PROTOCOL_VERSION,
      BRIDGE_RESPONSE_CHUNK_FRAME_TYPE])
    (by simp)
  obtain ⟨h4, h5, h6⟩ := Rd_getU8_rem ⟨mkRespChunkFrame c, 0 + 1⟩ 7
    (u32beL c.length ++ c) (by simpa using h2) h3
  obtain ⟨h7, h8, h9⟩ := Rd_getBytes_rem ⟨mkRespChunkFrame c, 0 + 1 + 1⟩ c []
    h (by simpa using h5) h6
  unfold decode_bridge_response_chunk decodeChunkShapedFrame
  dsimp only
  rw [h1]
  dsimp only
  rw [if_neg (by decide)]
  rw [h4]
  dsimp only
  rw [if_neg (by decide)]
  rw [h7]
  dsimp only
  rw [ensureDone_of_off_eq _ _
    (by simp [mkRespChunkFrame, List.length_append, u32beL]; omega)]

/-- Decoding the end frame succeeds. -/
theorem decode_end_mk : decode_bridge_response_end respEndFrame = .ok () := rfl

/-- Inserting an empty response-chunk frame anywhere in the socket read
script changes nothing: it is skipped, counts zero bytes and delivers
nothing. -/
theorem streamSocket_skip_empty (pre : List (Except String (List Nat))) :
    ∀ post total,
      streamSocketChunks (pre ++ .ok emptyChunkFramePayload :: post) total =
        streamSocketChunks (pre ++ post) total := by
  induction pre with
  | nil => intro post total; rfl
  | cons r pre ih =>
    intro post total
    cases r with
    | error e => rfl
    | ok payload =>
      simp only [List.cons_append]
      rw [streamSocketChunks_cons_ok, streamSocketChunks_cons_ok]
      cases hpk : peek_bridge_frame_type payload with
      | error e => rfl
      | ok ft =>
        dsimp only
        by_cases h7 : ft = BRIDGE_RESPONSE_CHUNK_FRAME_TYPE
        · rw [if_pos h7, if_pos h7]
          cases hdc : decode_bridge_response_chunk payload with
          | error e => rfl
          | ok chunk =>
            dsimp only
            by_cases hce : chunk = []
            · rw [if_pos hce, if_pos hce]
              exact ih post total
            · rw [if_neg hce, if_neg hce]
              by_cases hlim : total + chunk.length > MAX_PROXY_BODY_BYTES
              · rw [if_pos hlim, if_pos hlim]
              · rw [if_neg hlim, if_neg hlim]
                rw [ih post (total + chunk.length)]
        · rw [if_neg h7, if_neg h7]

/-- Inserting an empty response-chunk frame anywhere in the direct-callback
queue script changes nothing. -/
theorem streamDirect_skip_empty (pre : List (List Nat)) :
    ∀ post,
      streamDirectFrames (pre ++ emptyChunkFramePayload :: post) =
        streamDirectFrames (pre ++ post) := by
  induction pre with
  | nil => intro post; rfl
  | cons payload pre ih =>
    intro post
    simp only [List.cons_append]
    rw [streamDirectFrames_cons, streamDirectFrames_cons]
    cases hpk : peek_bridge_frame_type payload with
    | error e => rfl
    | ok ft =>
      dsimp only
      by_cases h7 : ft = BRIDGE_RESPONSE_CHUNK_FRAME_TYPE
      · rw [if_pos h7, if_pos h7]
        cases hdc : decode_bridge_response_chunk payload with
        | error e => rfl
        | ok chunk =>
          dsimp only
          by_cases hce : chunk = []
          · rw [if_pos hce, if_pos hce]
            exact ih post
          · rw [if_neg hce, if_neg hce]
            rw [ih post]
      · rw [if_neg h7, if_neg h7]

/-- The socket streaming loop delivers exactly the non-empty chunks, in
order, when the body fits MAX_BODY. -/
theorem streamSocket_delivers (cs : List (List Nat)) :
    ∀ total : Nat,
      total + cs.foldr (fun c a => c.length + a) 0 ≤ MAX_PROXY_BODY_BYTES →
      streamSocketChunks
          (cs.map (fun c => .ok (mkRespChunkFrame c)) ++ [.ok respEndFrame])
          total =
        (cs.filter fun c => !c.isEmpty).map
          (fun c => (.ok c : Except String (List Nat))) := by
  induction cs with
  | nil => intro total _; rfl
  | cons c cs ih =>
    intro total hsum
    simp only [List.foldr_cons] at hsum
    have hc32 : c.length < 4294967296 := by
      simp only [MAX_PROXY_BODY_BYTES] at hsum
      omega
    simp only [List.map_cons, List.cons_append]
    rw [streamSocketChunks_cons_ok, peek_mkRespChunkFrame]
    dsimp only
    rw [if_pos rfl, decode_chunk_mk c hc32]
    dsimp only
    by_cases hce : c = []
    · rw [if_pos hce]
      have h0 : c.length = 0 := by
        rw [hce]
        rfl
      have hfil : (c :: cs).filter (fun c => !c.isEmpty) =
          cs.filter (fun c => !c.isEmpty) := by
        simp [List.filter_cons, hce]
      rw [hfil]
      exact ih total (by omega)
    · rw [if_neg hce]
      have hnl : ¬(total + c.length > MAX_PROXY_BODY_BYTES) := by omega
      rw [if_neg hnl]
      have hfil : (c :: cs).filter (fun c => !c.isEmpty) =
          c :: cs.filter (fun c => !c.isEmpty) := by
        simp [List.filter_cons, hce]
      rw [hfil]
      simp only [List.map_cons]
      congr 1
      exact ih (total + c.length) (by omega)

/-- The direct-callback streaming loop delivers exactly the non-empty
chunks, in order. -/
theorem streamDirect_delivers (cs : List (List Nat)) :
    (∀ c ∈ cs, c.length < 4294967296) →
    streamDirectFrames (cs.map mkRespChunkFrame ++ [respEndFrame]) =
      (cs.filter fun c => !c.isEmpty).map
        (fun c => (.ok c : Except String (List Nat))) := by
  induction cs with
  | nil => intro _; rfl
  | cons c cs ih =>
    intro h32
    simp only [List.map_cons, List.cons_append]
    rw [streamDirectFrames_cons, peek_mkRespChunkFrame]
    dsimp only
    rw [if_pos rfl, decode_chunk_mk c (h32 c (by simp))]
    dsimp only
    by_cases hce : c = []
    · rw [if_pos hce]
      have hfil : (c :: cs).filter (fun c => !c.isEmpty) =
          cs.filter (fun c => !c.isEmpty) := by
        simp [List.filter_cons, hce]
      rw [hfil]
      exact ih (fun c' hc' => h32 c' (by simp [hc']))
    · rw [if_neg hce]
      have hfil : (c :: cs).filter (fun c => !c.isEmpty) =
          c :: cs.filter (fun c => !c.isEmpty) := by
        simp [List.filter_cons, hce]
      rw [hfil]
      simp only [List.map_cons]
      congr 1
      exact ih (fun c' hc' => h32 c' (by simp [hc']))

/-- C9: on both the socket and direct-callback response streaming paths an
empty response-chunk frame is accepted and silently skipped — inserting
one anywhere changes neither the delivered stream nor the cumulative
MAX_BODY count — and the delivered body is exactly the non-empty decoded
chunks in arrival order. -/
theorem c9_empty_chunk_skipped :
    (∀ pre post total,
      streamSocketChunks (pre ++ .ok emptyChunkFramePayload :: post) total =
        streamSocketChunks (pre ++ post) total) ∧
    (∀ pre post,
      streamDirectFrames (pre ++ emptyChunkFramePayload :: post) =
        streamDirectFrames (pre ++ post)) ∧
    (∀ (cs : List (List Nat)) (total : Nat),
      total + cs.foldr (fun c a => c.length + a) 0 ≤ MAX_PROXY_BODY_BYTES →
      streamSocketChunks
          (cs.map (fun c => .ok (mkRespChunkFrame c)) ++ [.ok respEndFrame])
          total =
        (cs.filter fun c => !c.isEmpty).map
          (fun c => (.ok c : Except String (List Nat)))) ∧
    (∀ (cs : List (List Nat)), (∀ c ∈ cs, c.length < 4294967296) →
      streamDirectFrames (cs.map mkRespChunkFrame ++ [respEndFrame]) =
        (cs.filter fun c => !c.isEmpty).map
          (fun c => (.ok c : Except String (List Nat)))) :=
  ⟨fun pre post total => streamSocket_skip_empty pre post total,
   fun pre post => streamDirect_skip_empty pre post,
   fun cs total h => streamSocket_delivers cs total h,
   fun cs h => streamDirect_delivers cs h⟩

/-- C9 (witness): inserting one empty chunk before the end frame changes
nothing, and a two-chunk body with an interleaved empty chunk delivers
exactly its non-empty chunks. -/
theorem c9_empty_chunk_skipped_witness :
    streamSocketChunks
        ([] ++ .ok emptyChunkFramePayload :: [.ok respEndFrame]) 0 =
      streamSocketChunks ([] ++ [.ok respEndFrame]) 0 ∧
    streamSocketChunks
        (([[104], [], [105]].map (fun c => .ok (mkRespChunkFrame c))) ++
          [.ok respEndFrame]) 0 =
      (([[104], [], [105]].filter fun c => !c.isEmpty).map
        (fun c => (.ok c : Except String (List Nat)))) ∧
    streamDirectFrames
        ([[104], [], [105]].map mkRespChunkFrame ++ [respEndFrame]) =
      (([[104], [], [105]].filter fun c => !c.isEmpty).map
        (fun c => (.ok c : Except String (List Nat)))) :=
  ⟨c9_empty_chunk_skipped.1 [] [.ok respEndFrame] 0,
   c9_empty_chunk_skipped.2.2.1 [[104], [], [105]] 0 (by decide),
   c9_empty_chunk_skipped.2.2.2 [[104], [], [105]] (by decide)⟩

/-- Appending bytes past the end of the buffer does not change a
successful `get_exact`, and the resulting offset stays within the
original buffer. -/
theorem Rd_getExact_extend (bs ext : List Nat) (off n : Nat)
    (mid : List Nat) (r' : Rd)
    (h : (⟨bs, off⟩ : Rd).getExact n = .ok (mid, r')) :
    r' = ⟨bs, off + n⟩ ∧ off + n ≤ bs.length ∧
    (⟨bs ++ ext, off⟩ : Rd).getExact n = .ok (mid, ⟨bs ++ ext, off + n⟩) := by
  unfold Rd.getExact at h ⊢
  dsimp only at h ⊢
  by_cases hb : off + n > bs.length
  · rw [if_pos hb] at h
    cases h
  · rw [if_neg hb] at h
    injection h with h1
    cases h1
    refine ⟨rfl, by omega, ?_⟩
    rw [if_neg (by simp only [List.length_append]; omega)]
    rw [List.drop_append_of_le_length (by omega),
      List.take_append_of_le_length (by simp only [List.length_drop]; omega)]

/-- `get_u8` is unchanged by appended trailing bytes. -/
theorem Rd_getU8_extend (bs ext : List Nat) (off v : Nat) (r' : Rd)
    (h : (⟨bs, off⟩ : Rd).getU8 = .ok (v, r')) :
    r' = ⟨bs, off + 1⟩ ∧ off + 1 ≤ bs.length ∧
    (⟨bs ++ ext, off⟩ : Rd).getU8 = .ok (v, ⟨bs ++ ext, off + 1⟩) := by
  unfold Rd.getU8 at h ⊢
  cases he : (⟨bs, off⟩ : Rd).getExact 1 with
  | error e => rw [he] at h; cases h
  | ok p =>
    obtain ⟨mid, r2⟩ := p
    rw [he] at h
    dsimp only at h
    injection h with h1
    obtain ⟨hv, hr⟩ := Prod.mk.injEq .. ▸ h1
    obtain ⟨h2, h3, h4⟩ := Rd_getExact_extend bs ext off 1 mid r2 he
    refine ⟨hr ▸ h2, h3, ?_⟩
    rw [h4]
    dsimp only
    rw [hv]

/-- `get_u16` is unchanged by appended trailing bytes. -/
theorem Rd_getU16_extend (bs ext : List Nat) (off v : Nat) (r' : Rd)
    (h : (⟨bs, off⟩ : Rd).getU16 = .ok (v, r')) :
    r' = ⟨bs, off + 2⟩ ∧ off + 2 ≤ bs.length ∧
    (⟨bs ++ ext, off⟩ : Rd).getU16 = .ok (v, ⟨bs ++ ext, off + 2⟩) := by
  unfold Rd.getU16 at h ⊢
  cases he : (⟨bs, off⟩ : Rd).getExact 2 with
  | error e => rw [he] at h; cases h
  | ok p =>
    obtain ⟨mid, r2⟩ := p
    rw [he] at h
    dsimp only at h
    injection h with h1
    obtain ⟨hv, hr⟩ := Prod.mk.injEq .. ▸ h1
    obtain ⟨h2, h3, h4⟩ := Rd_getExact_extend bs ext off 2 mid r2 he
    refine ⟨hr ▸ h2, h3, ?_⟩
    rw [h4]
    dsimp only
    rw [hv]

/-- `get_u32` is unchanged by appended trailing bytes. -/
theorem Rd_getU32_extend (bs ext : List Nat) (off v : Nat) (r' : Rd)
    (h : (⟨bs, off⟩ : Rd).getU32 = .ok (v, r')) :
    r' = ⟨bs, off + 4⟩ ∧ off + 4 ≤ bs.length ∧
    (⟨bs ++ ext, off⟩ : Rd).getU32 = .ok (v, ⟨bs ++ ext, off + 4⟩) := by
  unfold Rd.getU32 at h ⊢
  cases he : (⟨bs, off⟩ : Rd).getExact 4 with
  | error e => rw [he] at h; cases h
  | ok p =>
    obtain ⟨mid, r2⟩ := p
    rw [he] at h
    dsimp only at h
    injection h with h1
    obtain ⟨hv, hr⟩ := Prod.mk.injEq .. ▸ h1
    obtain ⟨h2, h3, h4⟩ := Rd_getExact_extend bs ext off 4 mid r2 he
    refine ⟨hr ▸ h2, h3, ?_⟩
    rw [h4]
    dsimp only
    rw [hv]

/-- `get_bytes` is unchanged by appended trailing bytes. -/
theorem Rd_getBytes_extend (bs ext : List Nat) (off : Nat)
    (field : List Nat) (r' : Rd)
    (h : (⟨bs, off⟩ : Rd).getBytes = .ok (field, r')) :
    ∃ off2, r' = ⟨bs, off2⟩ ∧ off2 ≤ bs.length ∧
    (⟨bs ++ ext, off⟩ : Rd).getBytes = .ok (field, ⟨bs ++ ext, off2⟩) := by
  unfold Rd.getBytes at h ⊢
  cases hu : (⟨bs, off⟩ : Rd).getU32 with
  | error e => rw [hu] at h; cases h
  | ok p =>
    obtain ⟨len, r1⟩ := p
    obtain ⟨h1, h2, h3⟩ := Rd_getU32_extend bs ext off len r1 hu
    rw [hu] at h
    dsimp only at h
    rw [h1] at h
    obtain ⟨h4, h5, h6⟩ := Rd_getExact_extend bs ext (off + 4) len field r' h
    exact ⟨off + 4 + len, h4, h5, by rw [h3]; dsimp only; exact h6⟩

/-- `ensure_done` succeeds only at the exact end of the buffer. -/
theorem ensureDone_ok_inv (bs : List Nat) (off : Nat)
    (h : (⟨bs, off⟩ : Rd).ensureDone = .ok ()) : off = bs.length := by
  unfold Rd.ensureDone at h
  dsimp only at h
  by_cases he : off = bs.length
  · exact he
  · rw [if_neg he] at h
    cases h

/-- `ensure_done` at the original end of a buffer extended by one byte
reports exactly one trailing byte. -/
theorem ensureDone_trailing (bs : List Nat) (b : Nat) :
    (⟨bs ++ [b], bs.length⟩ : Rd).ensureDone =
      .error "unexpected trailing bridge payload bytes: 1" := by
  unfold Rd.ensureDone
  dsimp only
  rw [if_neg (by simp)]
  have hl : (bs ++ [b]).length - bs.length = 1 := by simp
  rw [hl]
  rfl

/-- Decoding one header name is unchanged by appended trailing bytes. -/
theorem hdrName_extend (bs ext : List Nat) (off : Nat) (tok : Bool)
    (nameOpt : Option (List Nat)) (r' : Rd)
    (h : decode_bridge_response_header_name ⟨bs, off⟩ tok = .ok (nameOpt, r')) :
    ∃ off2, r' = ⟨bs, off2⟩ ∧ off2 ≤ bs.length ∧
    decode_bridge_response_header_name ⟨bs ++ ext, off⟩ tok =
      .ok (nameOpt, ⟨bs ++ ext, off2⟩) := by
  unfold decode_bridge_response_header_name at h ⊢
  cases tok with
  | false =>
    rw [if_pos (by decide)] at h ⊢
    cases hgb : (⟨bs, off⟩ : Rd).getBytes with
    | error e => rw [hgb] at h; cases h
    | ok p =>
      obtain ⟨name, r1⟩ := p
      rw [hgb] at h
      dsimp only at h
      injection h with h1
      obtain ⟨hn, hr⟩ := Prod.mk.injEq .. ▸ h1
      obtain ⟨off2, h2, h3, h4⟩ := Rd_getBytes_extend bs ext off name r1 hgb
      refine ⟨off2, hr ▸ h2, h3, ?_⟩
      rw [h4]
      dsimp only
      rw [hn]
  | true =>
    rw [if_neg (by decide)] at h ⊢
    cases hu : (⟨bs, off⟩ : Rd).getU16 with
    | error e => rw [hu] at h; cases h
    | ok p =>
      obtain ⟨token, r1⟩ := p
      obtain ⟨h1, h2, h3⟩ := Rd_getU16_extend bs ext off token r1 hu
      rw [hu] at h
      dsimp only at h
      rw [h3]
      dsimp only
      by_cases htok : token = BRIDGE_HEADER_NAME_LITERAL_TOKEN
      · rw [if_pos htok] at h ⊢
        rw [h1] at h
        cases hgb : (⟨bs, off + 2⟩ : Rd).getBytes with
        | error e => rw [hgb] at h; cases h
        | ok p =>
          obtain ⟨name, r2⟩ := p
          rw [hgb] at h
          dsimp only at h
          injection h with h1'
          obtain ⟨hn, hr⟩ := Prod.mk.injEq .. ▸ h1'
          obtain ⟨off2, h4, h5, h6⟩ := Rd_getBytes_extend bs ext (off + 2) name r2 hgb
          refine ⟨off2, hr ▸ h4, h5, ?_⟩
          rw [h6]
          dsimp only
          rw [hn]
      · rw [if_neg htok] at h ⊢
        cases hl : bridge_header_name_from_token token with
        | none => rw [hl] at h; cases h
        | some name =>
          rw [hl] at h
          dsimp only at h ⊢
          injection h with h1'
          obtain ⟨hn, hr⟩ := Prod.mk.injEq .. ▸ h1'
          exact ⟨off + 2, hr ▸ h1, h2, by rw [hn]⟩

/-- The response-header loop is unchanged by appended trailing bytes. -/
theorem readResponseHeaders_extend (tok : Bool) (ext : List Nat) :
    ∀ (count : Nat) (bs : List Nat) (off : Nat), off ≤ bs.length →
    ∀ (hdrs : List (List Nat × List Nat)) (r' : Rd),
    readResponseHeaders tok count ⟨bs, off⟩ = .ok (hdrs, r') →
    ∃ off2, r' = ⟨bs, off2⟩ ∧ off2 ≤ bs.length ∧
    readResponseHeaders tok count ⟨bs ++ ext, off⟩ =
      .ok (hdrs, ⟨bs ++ ext, off2⟩) := by
  intro count
  induction count with
  | zero =>
    intro bs off hoff hdrs r' h
    unfold readResponseHeaders at h
    injection h with h1
    obtain ⟨hh, hr⟩ := Prod.mk.injEq .. ▸ h1
    exact ⟨off, hr.symm, hoff, by rw [← hh]; rfl⟩
  | succ k ih =>
    intro bs off hoff hdrs r' h
    unfold readResponseHeaders at h ⊢
    cases hn : decode_bridge_response_header_name ⟨bs, off⟩ tok with
    | error e => rw [hn] at h; cases h
    | ok p =>
      obtain ⟨nameOpt, r1⟩ := p
      obtain ⟨off1, h1, h2, h3⟩ := hdrName_extend bs ext off tok nameOpt r1 hn
      rw [hn] at h
      dsimp only at h
      rw [h1] at h
      rw [h3]
      dsimp only
      cases hgb : (⟨bs, off1⟩ : Rd).getBytes with
      | error e => rw [hgb] at h; cases h
      | ok p =>
        obtain ⟨value, r2⟩ := p
        obtain ⟨off2, h4, h5, h6⟩ := Rd_getBytes_extend bs ext off1 value r2 hgb
        rw [hgb] at h
        dsimp only at h
        rw [h4] at h
        rw [h6]
        dsimp only
        cases hrec : readResponseHeaders tok k ⟨bs, off2⟩ with
        | error e => rw [hrec] at h; cases h
        | ok p =>
          obtain ⟨rest, r3⟩ := p
          obtain ⟨off3, h7, h8, h9⟩ := ih bs off2 h5 rest r3 hrec
          rw [hrec] at h
          dsimp only at h
          rw [h9]
          dsimp only
          cases nameOpt with
          | none =>
            dsimp only at h ⊢
            injection h with h1'
            obtain ⟨hh, hr⟩ := Prod.mk.injEq .. ▸ h1'
            exact ⟨off3, hr ▸ h7, h8, by rw [hh]⟩
          | some name =>
            dsimp only at h ⊢
            by_cases hv : headerValueIsValid value = true
            · rw [if_pos hv] at h ⊢
              injection h with h1'
              obtain ⟨hh, hr⟩ := Prod.mk.injEq .. ▸ h1'
              exact ⟨off3, hr ▸ h7, h8, by rw [hh]⟩
            · rw [if_neg hv] at h ⊢
              injection h with h1'
              obtain ⟨hh, hr⟩ := Prod.mk.injEq .. ▸ h1'
              exact ⟨off3, hr ▸ h7, h8, by rw [hh]⟩

/-- A chunk-shaped frame decoder rejects a successful payload with one
extra byte appended, reporting one trailing byte. -/
theorem decodeChunkShaped_trailing (expected : Nat) (errName : String)
    (payload : List Nat) (b : Nat) (chunk : List Nat)
    (h : decodeChunkShapedFrame expected errName payload = .ok chunk) :
    decodeChunkShapedFrame expected errName (payload ++ [b]) =
      .error "unexpected trailing bridge payload bytes: 1" := by
  unfold decodeChunkShapedFrame at h ⊢
  dsimp only at h ⊢
  cases hu1 : (⟨payload, 0⟩ : Rd).getU8 with
  | error e => rw [hu1] at h; cases h
  | ok p =>
    obtain ⟨version, r1⟩ := p
    obtain ⟨h1, h2, h3⟩ := Rd_getU8_extend payload [b] 0 version r1 hu1
    rw [hu1] at h
    dsimp only at h
    rw [h1] at h
    rw [h3]
    dsimp only
    by_cases hv : (!is_supported_bridge_protocol_version version) = true
    · rw [if_pos hv] at h; cases h
    · rw [if_neg hv] at h
      rw [if_neg hv]
      cases hu2 : (⟨payload, 0 + 1⟩ : Rd).getU8 with
      | error e => rw [hu2] at h; cases h
      | ok p =>
        obtain ⟨ftype, r2⟩ := p
        obtain ⟨h4, h5, h6⟩ := Rd_getU8_extend payload [b] (0 + 1) ftype r2 hu2
        rw [hu2] at h
        dsimp only at h
        rw [h4] at h
        rw [h6]
        dsimp only
        by_cases hft : ftype = expected
        · rw [if_neg (not_not_intro hft)] at h
          rw [if_neg (not_not_intro hft)]
          cases hgb : (⟨payload, 0 + 1 + 1⟩ : Rd).getBytes with
          | error e => rw [hgb] at h; cases h
          | ok p =>
            obtain ⟨ck, r3⟩ := p
            obtain ⟨off3, h7, h8, h9⟩ :=
              Rd_getBytes_extend payload [b] (0 + 1 + 1) ck r3 hgb
            rw [hgb] at h
            dsimp only at h
            rw [h7] at h
            rw [h9]
            dsimp only
            cases hed : (⟨payload, off3⟩ : Rd).ensureDone with
            | error e => rw [hed] at h; cases h
            | ok u =>
              cases u
              have hoff : off3 = payload.length := ensureDone_ok_inv payload off3 hed
              rw [hoff, ensureDone_trailing payload b]
        · rw [if_pos hft] at h; cases h

/-- An empty-shaped frame decoder rejects a successful payload with one
extra byte appended, reporting one trailing byte. -/
theorem decodeEmptyShaped_trailing (expected : Nat) (errName : String)
    (payload : List Nat) (b : Nat) (u : Unit)
    (h : decodeEmptyShapedFrame expected errName payload = .ok u) :
    decodeEmptyShapedFrame expected errName (payload ++ [b]) =
      .error "unexpected trailing bridge payload bytes: 1" := by
  unfold decodeEmptyShapedFrame at h ⊢
  dsimp only at h ⊢
  cases hu1 : (⟨payload, 0⟩ : Rd).getU8 with
  | error e => rw [hu1] at h; cases h
  | ok p =>
    obtain ⟨version, r1⟩ := p
    obtain ⟨h1, h2, h3⟩ := Rd_getU8_extend payload [b] 0 version r1 hu1
    rw [hu1] at h
    dsimp only at h
    rw [h1] at h
    rw [h3]
    dsimp only
    by_cases hv : (!is_supported_bridge_protocol_version version) = true
    · rw [if_pos hv] at h; cases h
    · rw [if_neg hv] at h
      rw [if_neg hv]
      cases hu2 : (⟨payload, 0 + 1⟩ : Rd).getU8 with
      | error e => rw [hu2] at h; cases h
      | ok p =>
        obtain ⟨ftype, r2⟩ := p
        obtain ⟨h4, h5, h6⟩ := Rd_getU8_extend payload [b] (0 + 1) ftype r2 hu2
        rw [hu2] at h
        dsimp only at h
        rw [h4] at h
        rw [h6]
        dsimp only
        by_cases hft : ftype = expected
        · rw [if_neg (not_not_intro hft)] at h
          rw [if_neg (not_not_intro hft)]
          cases u
          have hoff : 0 + 1 + 1 = payload.length :=
            ensureDone_ok_inv payload (0 + 1 + 1) h
          rw [hoff, ensureDone_trailing payload b]
        · rw [if_pos hft] at h; cases h

/-- `decode_bridge_response` rejects a successful payload with one extra
byte appended, reporting one trailing byte. -/
theorem decode_bridge_response_trailing (payload : List Nat) (b : Nat)
    (resp : BridgeResponse)
    (h : decode_bridge_response payload = .ok resp) :
    decode_bridge_response (payload ++ [b]) =
      .error "unexpected trailing bridge payload bytes: 1" := by
  unfold decode_bridge_response at h ⊢
  dsimp only at h ⊢
  cases hu1 : (⟨payload, 0⟩ : Rd).getU8 with
  | error e => rw [hu1] at h; cases h
  | ok p =>
    obtain ⟨version, r1⟩ := p
    obtain ⟨h1, h2, h3⟩ := Rd_getU8_extend payload [b] 0 version r1 hu1
    rw [hu1] at h
    dsimp only at h
    rw [h1] at h
    rw [h3]
    dsimp only
    by_cases hv : (!is_supported_bridge_protocol_version version) = true
    · rw [if_pos hv] at h; cases h
    · rw [if_neg hv] at h
      rw [if_neg hv]
      cases hu2 : (⟨payload, 0 + 1⟩ : Rd).getU8 with
      | error e => rw [hu2] at h; cases h
      | ok p =>
        obtain ⟨ftype, r2⟩ := p
        obtain ⟨h4, h5, h6⟩ := Rd_getU8_extend payload [b] (0 + 1) ftype r2 hu2
        rw [hu2] at h
        dsimp only at h
        rw [h4] at h
        rw [h6]
        dsimp only
        by_cases hft : (!is_bridge_response_frame_type ftype) = true
        · rw [if_pos hft] at h; cases h
        · rw [if_neg hft] at h
          rw [if_neg hft]
          cases hu3 : (⟨payload, 0 + 1 + 1⟩ : Rd).getU16 with
          | error e => rw [hu3] at h; cases h
          | ok p =>
            obtain ⟨status, r3⟩ := p
            obtain ⟨h7, h8, h9⟩ :=
              Rd_getU16_extend payload [b] (0 + 1 + 1) status r3 hu3
            rw [hu3] at h
            dsimp only at h
            rw [h7] at h
            rw [h9]
            dsimp only
            cases hu4 : (⟨payload, 0 + 1 + 1 + 2⟩ : Rd).getU32 with
            | error e => rw [hu4] at h; cases h
            | ok p =>
              obtain ⟨hcount, r4⟩ := p
              obtain ⟨h10, h11, h12⟩ :=
                Rd_getU32_extend payload [b] (0 + 1 + 1 + 2) hcount r4 hu4
              rw [hu4] at h
              dsimp only at h
              rw [h10] at h
              rw [h12]
              dsimp only
              cases hrh : readResponseHeaders
                  (is_bridge_response_frame_type_tokenized ftype) hcount
                  ⟨payload, 0 + 1 + 1 + 2 + 4⟩ with
              | error e => rw [hrh] at h; cases h
              | ok p =>
                obtain ⟨headers, r5⟩ := p
                obtain ⟨off5, h13, h14, h15⟩ := readResponseHeaders_extend
                  (is_bridge_response_frame_type_tokenized ftype) [b] hcount
                  payload (0 + 1 + 1 + 2 + 4) h11 headers r5 hrh
                rw [hrh] at h
                dsimp only at h
                rw [h13] at h
                rw [h15]
                dsimp only
                cases hgb : (⟨payload, off5⟩ : Rd).getBytes with
                | error e => rw [hgb] at h; cases h
                | ok p =>
                  obtain ⟨body, r6⟩ := p
                  obtain ⟨off6, h16, h17, h18⟩ :=
                    Rd_getBytes_extend payload [b] off5 body r6 hgb
                  rw [hgb] at h
                  dsimp only at h
                  rw [h16] at h
                  rw [h18]
                  dsimp only
                  cases hed : (⟨payload, off6⟩ : Rd).ensureDone with
                  | error e => rw [hed] at h; cases h
                  | ok u =>
                    cases u
                    have hoff : off6 = payload.length :=
                      ensureDone_ok_inv payload off6 hed
                    rw [hoff, ensureDone_trailing payload b]

/-- `decode_bridge_response_start` rejects a successful payload with one
extra byte appended, reporting one trailing byte. -/
theorem decode_bridge_response_start_trailing (payload : List Nat) (b : Nat)
    (x : Nat × List (List Nat × List Nat))
    (h : decode_bridge_response_start payload = .ok x) :
    decode_bridge_response_start (payload ++ [b]) =
      .error "unexpected trailing bridge payload bytes: 1" := by
  unfold decode_bridge_response_start at h ⊢
  dsimp only at h ⊢
  cases hu1 : (⟨payload, 0⟩ : Rd).getU8 with
  | error e => rw [hu1] at h; cases h
  | ok p =>
    obtain ⟨version, r1⟩ := p
    obtain ⟨h1, h2, h3⟩ := Rd_getU8_extend payload [b] 0 version r1 hu1
    rw [hu1] at h
    dsimp only at h
    rw [h1] at h
    rw [h3]
    dsimp only
    by_cases hv : (!is_supported_bridge_protocol_version version) = true
    · rw [if_pos hv] at h; cases h
    · rw [if_neg hv] at h
      rw [if_neg hv]
      cases hu2 : (⟨payload, 0 + 1⟩ : Rd).getU8 with
      | error e => rw [hu2] at h; cases h
      | ok p =>
        obtain ⟨ftype, r2⟩ := p
        obtain ⟨h4, h5, h6⟩ := Rd_getU8_extend payload [b] (0 + 1) ftype r2 hu2
        rw [hu2] at h
        dsimp only at h
        rw [h4] at h
        rw [h6]
        dsimp only
        by_cases hft : (!is_bridge_response_start_frame_type ftype) = true
        · rw [if_pos hft] at h; cases h
        · rw [if_neg hft] at h
          rw [if_neg hft]
          cases hu3 : (⟨payload, 0 + 1 + 1⟩ : Rd).getU16 with
          | error e => rw [hu3] at h; cases h
          | ok p =>
            obtain ⟨status, r3⟩ := p
            obtain ⟨h7, h8, h9⟩ :=
              Rd_getU16_extend payload [b] (0 + 1 + 1) status r3 hu3
            rw [hu3] at h
            dsimp only at h
            rw [h7] at h
            rw [h9]
            dsimp only
            cases hu4 : (⟨payload, 0 + 1 + 1 + 2⟩ : Rd).getU32 with
            | error e => rw [hu4] at h; cases h
            | ok p =>
              obtain ⟨hcount, r4⟩ := p
              obtain ⟨h10, h11, h12⟩ :=
                Rd_getU32_extend payload [b] (0 + 1 + 1 + 2) hcount r4 hu4
              rw [hu4] at h
              dsimp only at h
              rw [h10] at h
              rw [h12]
              dsimp only
              cases hrh : readResponseHeaders
                  (is_bridge_response_start_frame_type_tokenized ftype) hcount
                  ⟨payload, 0 + 1 + 1 + 2 + 4⟩ with
              | error e => rw [hrh] at h; cases h
              | ok p =>
                obtain ⟨headers, r5⟩ := p
                obtain ⟨off5, h13, h14, h15⟩ := readResponseHeaders_extend
                  (is_bridge_response_start_frame_type_tokenized ftype) [b] hcount
                  payload (0 + 1 + 1 + 2 + 4) h11 headers r5 hrh
                rw [hrh] at h
                dsimp only at h
                rw [h13] at h
                rw [h15]
                dsimp only
                cases hed : (⟨payload, off5⟩ : Rd).ensureDone with
                | error e => rw [hed] at h; cases h
                | ok u =>
                  cases u
                  have hoff : off5 = payload.length :=
                    ensureDone_ok_inv payload off5 hed
                  rw [hoff, ensureDone_trailing payload b]

/-- C7: every encoded frame's outer u32 length prefix equals the byte
length of the payload that follows it (for both `write_bridge_frame` and
`write_bridge_chunk_frame_with_type`), and every frame decoder rejects a
successfully decodable payload with one extra byte appended, with a
trailing-bytes error instead of a decode. -/
theorem c7_length_prefix_exact :
    (∀ (payload w : List Nat), write_bridge_frame_bytes payload = .ok w →
      w = u32beL payload.length ++ payload ∧
      beVal (w.take 4) = (w.drop 4).length) ∧
    (∀ (ftype : Nat) (chunk w : List Nat),
      write_bridge_chunk_frame_bytes ftype chunk = .ok w →
      beVal (w.take 4) = (w.drop 4).length) ∧
    (∀ (payload : List Nat) (b : Nat) (resp : BridgeResponse),
      decode_bridge_response payload = .ok resp →
      decode_bridge_response (payload ++ [b]) =
        .error "unexpected trailing bridge payload bytes: 1") ∧
    (∀ (payload : List Nat) (b : Nat) (x : Nat × List (List Nat × List Nat)),
      decode_bridge_response_start payload = .ok x →
      decode_bridge_response_start (payload ++ [b]) =
        .error "unexpected trailing bridge payload bytes: 1") ∧
    (∀ (payload : List Nat) (b : Nat) (c : List Nat),
      decode_bridge_response_chunk payload = .ok c →
      decode_bridge_response_chunk (payload ++ [b]) =
        .error "unexpected trailing bridge payload bytes: 1") ∧
    (∀ (payload : List Nat) (b : Nat) (u : Unit),
      decode_bridge_response_end payload = .ok u →
      decode_bridge_response_end (payload ++ [b]) =
        .error "unexpected trailing bridge payload bytes: 1") ∧
    (∀ (payload : List Nat) (b : Nat) (c : List Nat),
      decode_bridge_tunnel_chunk payload = .ok c →
      decode_bridge_tunnel_chunk (payload ++ [b]) =
        .error "unexpected trailing bridge payload bytes: 1") ∧
    (∀ (payload : List Nat) (b : Nat) (u : Unit),
      decode_bridge_tunnel_close payload = .ok u →
      decode_bridge_tunnel_close (payload ++ [b]) =
        .error "unexpected trailing bridge payload bytes: 1") := by
  refine ⟨?_, ?_, ?_, ?_, ?_, ?_, ?_, ?_⟩
  · intro payload w h
    unfold write_bridge_frame_bytes at h
    by_cases hl : payload.length > MAX_BRIDGE_FRAME_BYTES
    · rw [if_pos hl] at h; cases h
    · rw [if_neg hl] at h
      injection h with h1
      subst h1
      refine ⟨rfl, ?_⟩
      have h4 : (u32beL payload.length).length = 4 := rfl
      rw [← h4, List.take_left, List.drop_left]
      have h32 : payload.length < 4294967296 := by
        simp only [MAX_BRIDGE_FRAME_BYTES] at hl
        omega
      exact beVal_u32beL payload.length h32
  · intro ftype chunk w h
    unfold write_bridge_chunk_frame_bytes at h
    by_cases h1 : chunk.length ≥ 4294967296
    · rw [if_pos h1] at h; cases h
    · rw [if_neg h1] at h
      by_cases h2 : 6 + chunk.length > MAX_BRIDGE_FRAME_BYTES
      · rw [if_pos h2] at h; cases h
      · rw [if_neg h2] at h
        injection h with h3
        subst h3
        have h4 : (u32beL (6 + chunk.length)).length = 4 := rfl
        rw [List.append_assoc, List.append_assoc, ← h4, List.take_left,
          List.drop_left]
        have h32 : 6 + chunk.length < 4294967296 := by
          simp only [MAX_BRIDGE_FRAME_BYTES] at h2
          omega
        rw [beVal_u32beL (6 + chunk.length) h32]
        have h5 : (u32beL chunk.length).length = 4 := rfl
        simp only [List.length_append, List.length_cons, List.length_nil, h5]
        omega
  · intro payload b resp h
    exact decode_bridge_response_trailing payload b resp h
  · intro payload b x h
    exact decode_bridge_response_start_trailing payload b x h
  · intro payload b c h
    exact decodeChunkShaped_trailing BRIDGE_RESPONSE_CHUNK_FRAME_TYPE
      "response chunk" payload b c h
  · intro payload b u h
    exact decodeEmptyShaped_trailing BRIDGE_RESPONSE_END_FRAME_TYPE
      "response end" payload b u h
  · intro payload b c h
    exact decodeChunkShaped_trailing BRIDGE_TUNNEL_CHUNK_FRAME_TYPE
      "tunnel chunk" payload b c h
  · intro payload b u h
    exact decodeEmptyShaped_trailing BRIDGE_TUNNEL_CLOSE_FRAME_TYPE
      "tunnel close" payload b u h

/-- C7 (witness): concrete frames round out the claim — the outer length
prefix of two concrete encodings equals the following payload's length,
and each of the six decoders rejects its concrete decodable payload with
one byte appended. -/
theorem c7_length_prefix_exact_witness :
    write_bridge_frame_bytes [1, 8] = .ok [0, 0, 0, 2, 1, 8] ∧
    beVal ([0, 0, 0, 2, 1, 8].take 4) = ([0, 0, 0, 2, 1, 8].drop 4).length ∧
    beVal (([0, 0, 0, 7, 1, 4, 0, 0, 0, 1, 97] : List Nat).take 4) =
      (([0, 0, 0, 7, 1, 4, 0, 0, 0, 1, 97] : List Nat).drop 4).length ∧
    decode_bridge_response ([1, 2, 0, 200, 0, 0, 0, 0, 0, 0, 0, 0] ++ [0]) =
      .error "unexpected trailing bridge payload bytes: 1" ∧
    decode_bridge_response_start ([1, 6, 0, 200, 0, 0, 0, 0] ++ [0]) =
      .error "unexpected trailing bridge payload bytes: 1" ∧
    decode_bridge_response_chunk ([1, 7, 0, 0, 0, 1, 97] ++ [0]) =
      .error "unexpected trailing bridge payload bytes: 1" ∧
    decode_bridge_response_end ([1, 8] ++ [0]) =
      .error "unexpected trailing bridge payload bytes: 1" ∧
    decode_bridge_tunnel_chunk ([1, 9, 0, 0, 0, 1, 97] ++ [0]) =
      .error "unexpected trailing bridge payload bytes: 1" ∧
    decode_bridge_tunnel_close ([1, 10] ++ [0]) =
      .error "unexpected trailing bridge payload bytes: 1" :=
  ⟨rfl,
   (c7_length_prefix_exact.1 [1, 8] [0, 0, 0, 2, 1, 8] rfl).2,
   c7_length_prefix_exact.2.1 4 [97] [0, 0, 0, 7, 1, 4, 0, 0, 0, 1, 97] rfl,
   c7_length_prefix_exact.2.2.1 [1, 2, 0, 200, 0, 0, 0, 0, 0, 0, 0, 0] 0
     ⟨200, [], []⟩ rfl,
   c7_length_prefix_exact.2.2.2.1 [1, 6, 0, 200, 0, 0, 0, 0] 0 (200, []) rfl,
   c7_length_prefix_exact.2.2.2.2.1 [1, 7, 0, 0, 0, 1, 97] 0 [97] rfl,
   c7_length_prefix_exact.2.2.2.2.2.1 [1, 8] 0 () rfl,
   c7_length_prefix_exact.2.2.2.2.2.2.1 [1, 9, 0, 0, 0, 1, 97] 0 [97] rfl,
   c7_length_prefix_exact.2.2.2.2.2.2.2 [1, 10] 0 () rfl⟩

/-- One unrolling of the response-header loop. -/
theorem readResponseHeaders_succ_eq (tok : Bool) (k : Nat) (r : Rd) :
    readResponseHeaders tok (k + 1) r =
      (match decode_bridge_response_header_name r tok with
       | .error e => .error e
       | .ok (nameOpt, r1) =>
         match r1.getBytes with
         | .error e => .error e
         | .ok (value, r2) =>
           match readResponseHeaders tok k r2 with
           | .error e => .error e
           | .ok (rest, r3) =>
             match nameOpt with
             | none => .ok (rest, r3)
             | some name =>
               if headerValueIsValid value then .ok ((name, value) :: rest, r3)
               else .ok (rest, r3)) := rfl

/-- The literal (non-tokenized) header loop over the wire bytes of a
header list returns exactly the pairs that survive HTTP name/value
validation, consuming exactly the header blob. -/
theorem readResponseHeaders_blob :
    ∀ (hs : List (List Nat × List Nat)) (r : Rd) (suf : List Nat),
    (∀ p ∈ hs, p.1.length < 4294967296 ∧ p.2.length < 4294967296) →
    r.rem = headerBlob hs ++ suf → r.off ≤ r.bytes.length →
    readResponseHeaders false hs.length r =
      .ok (hs.filterMap validHeaderPair,
        ⟨r.bytes, r.off + (headerBlob hs).length⟩) ∧
    (⟨r.bytes, r.off + (headerBlob hs).length⟩ : Rd).rem = suf ∧
    r.off + (headerBlob hs).length ≤ r.bytes.length := by
  intro hs
  induction hs with
  | nil =>
    intro r suf hlens hr hoff
    refine ⟨rfl, ?_, ?_⟩
    · simpa [Rd.rem, headerBlob] using hr
    · simpa [headerBlob] using hoff
  | cons p hs ih =>
    intro r suf hlens hr hoff
    obtain ⟨n1, v1⟩ := p
    have hb1 : n1.length < 4294967296 := (hlens (n1, v1) (by simp)).1
    have hb2 : v1.length < 4294967296 := (hlens (n1, v1) (by simp)).2
    have hr1 : r.rem =
        u32beL n1.length ++ (n1 ++ (mkLenPref v1 ++ (headerBlob hs ++ suf))) := by
      simpa [headerBlob, mkLenPref, List.append_assoc] using hr
    obtain ⟨hgb1, hrem1, hle1⟩ :=
      Rd_getBytes_rem r n1 (mkLenPref v1 ++ (headerBlob hs ++ suf)) hb1 hr1 hoff
    have hr2 : (⟨r.bytes, r.off + 4 + n1.length⟩ : Rd).rem =
        u32beL v1.length ++ (v1 ++ (headerBlob hs ++ suf)) := by
      simpa [mkLenPref, List.append_assoc] using hrem1
    obtain ⟨hgb2, hrem2, hle2⟩ :=
      Rd_getBytes_rem ⟨r.bytes, r.off + 4 + n1.length⟩ v1
        (headerBlob hs ++ suf) hb2 hr2 hle1
    dsimp only at hgb2 hrem2 hle2
    obtain ⟨hrec, hrem3, hle3⟩ :=
      ih ⟨r.bytes, r.off + 4 + n1.length + 4 + v1.length⟩ suf
        (fun q hq => hlens q (by simp [hq])) hrem2 hle2
    dsimp only at hrec hrem3 hle3
    have hdn : decode_bridge_response_header_name r false =
        .ok (headerNameFromBytes n1, ⟨r.bytes, r.off + 4 + n1.length⟩) := by
      unfold decode_bridge_response_header_name
      rw [if_pos (by decide), hgb1]
    have hL4 : ∀ v : Nat, (u32beL v).length = 4 := fun v => rfl
    have hhb : headerBlob ((n1, v1) :: hs) =
        mkLenPref n1 ++ (mkLenPref v1 ++ headerBlob hs) := rfl
    have hOff : r.off + 4 + n1.length + 4 + v1.length + (headerBlob hs).length =
        r.off + (headerBlob ((n1, v1) :: hs)).length := by
      rw [hhb]
      simp only [List.length_append, mkLenPref, hL4]
      omega
    refine ⟨?_, ?_, ?_⟩
    · simp only [List.length_cons]
      rw [readResponseHeaders_succ_eq, hdn]
      dsimp only
      rw [hgb2]
      dsimp only
      rw [hrec]
      dsimp only
      cases hnm : headerNameFromBytes n1 with
      | none =>
        dsimp only
        have hvp : validHeaderPair (n1, v1) = none := by
          simp [validHeaderPair, hnm]
        rw [List.filterMap_cons, hvp, ← hOff]
      | some nm =>
        dsimp only
        by_cases hvv : headerValueIsValid v1 = true
        · rw [if_pos hvv]
          have hvp : validHeaderPair (n1, v1) = some (nm, v1) := by
            simp [validHeaderPair, hnm, hvv]
          rw [List.filterMap_cons, hvp, ← hOff]
        · rw [if_neg hvv]
          have hvf : headerValueIsValid v1 = false := by
            cases hq : headerValueIsValid v1
            · rfl
            · exact absurd hq hvv
          have hvp : validHeaderPair (n1, v1) = none := by
            simp [validHeaderPair, hnm, hvf]
          rw [List.filterMap_cons, hvp, ← hOff]
    · rw [← hOff]
      exact hrem3
    · rw [hOff] at hle3
      exact hle3

/-- C10: when decoding a single-frame response or a response-start frame,
header pairs whose name fails HTTP header-name parsing or whose value
fails HTTP header-value validation are silently skipped: decoding succeeds
and returns exactly the surviving pairs, in order. -/
theorem c10_invalid_header_skipped (status : Nat)
    (hs : List (List Nat × List Nat)) (body : List Nat)
    (hstat : status < 65536) (hcnt : hs.length < 4294967296)
    (hbody : body.length < 4294967296)
    (hpairs : ∀ p ∈ hs, p.1.length < 4294967296 ∧ p.2.length < 4294967296) :
    decode_bridge_response (mkRespSinglePayload status hs body) =
      .ok ⟨status, hs.filterMap validHeaderPair, body⟩ ∧
    decode_bridge_response_start (mkRespStartPayload status hs) =
      .ok (status, hs.filterMap validHeaderPair) := by
  constructor
  · obtain ⟨h1, h2, h3⟩ := Rd_getU8_rem ⟨mkRespSinglePayload status hs body, 0⟩ 1
      (2 :: (u16beL status ++ (u32beL hs.length ++ (headerBlob hs ++ mkLenPref body))))
      (by simp [Rd.rem, mkRespSinglePayload, BRIDGE_PROTOCOL_VERSION,
        BRIDGE_RESPONSE_FRAME_TYPE, List.append_assoc])
      (by simp)
    obtain ⟨h4, h5, h6⟩ := Rd_getU8_rem ⟨mkRespSinglePayload status hs body, 0 + 1⟩ 2
      (u16beL status ++ (u32beL hs.length ++ (headerBlob hs ++ mkLenPref body)))
      (by simpa using h2) h3
    obtain ⟨h7, h8, h9⟩ := Rd_getU16_rem
      ⟨mkRespSinglePayload status hs body, 0 + 1 + 1⟩ status
      (u32beL hs.length ++ (headerBlob hs ++ mkLenPref body)) hstat
      (by simpa using h5) h6
    obtain ⟨h10, h11, h12⟩ := Rd_getU32_rem
      ⟨mkRespSinglePayload status hs body, 0 + 1 + 1 + 2⟩ hs.length
      (headerBlob hs ++ mkLenPref body) hcnt (by simpa using h8) h9
    obtain ⟨h13, h14, h15⟩ := readResponseHeaders_blob hs
      ⟨mkRespSinglePayload status hs body, 0 + 1 + 1 + 2 + 4⟩
      (mkLenPref body) hpairs (by simpa using h11) h12
    dsimp only at h13 h14 h15
    obtain ⟨h16, h17, h18⟩ := Rd_getBytes_rem
      ⟨mkRespSinglePayload status hs body,
        0 + 1 + 1 + 2 + 4 + (headerBlob hs).length⟩
      body [] hbody (by simpa [mkLenPref] using h14) h15
    dsimp only at h16 h17 h18
    have hend : 0 + 1 + 1 + 2 + 4 + (headerBlob hs).length + 4 + body.length =
        (mkRespSinglePayload status hs body).length := by
      have hd : (mkRespSinglePayload status hs body).drop
          (0 + 1 + 1 + 2 + 4 + (headerBlob hs).length + 4 + body.length) = [] := by
        simpa [Rd.rem] using h17
      have hge := List.drop_eq_nil_iff.mp hd
      omega
    unfold decode_bridge_response
    dsimp only
    rw [h1]
    dsimp only
    rw [if_neg (by decide)]
    rw [h4]
    dsimp only
    rw [if_neg (by decide)]
    rw [h7]
    dsimp only
    rw [h10]
    dsimp only
    rw [show is_bridge_response_frame_type_tokenized (2 % 256) = false from rfl]
    rw [h13]
    dsimp only
    rw [h16]
    dsimp only
    rw [ensureDone_of_off_eq _ _ hend]
  · obtain ⟨h1, h2, h3⟩ := Rd_getU8_rem ⟨mkRespStartPayload status hs, 0⟩ 1
      (6 :: (u16beL status ++ (u32beL hs.length ++ (headerBlob hs ++ []))))
      (by simp [Rd.rem, mkRespStartPayload, BRIDGE_PROTOCOL_VERSION,
        BRIDGE_RESPONSE_START_FRAME_TYPE, List.append_assoc])
      (by simp)
    obtain ⟨h4, h5, h6⟩ := Rd_getU8_rem ⟨mkRespStartPayload status hs, 0 + 1⟩ 6
      (u16beL status ++ (u32beL hs.length ++ (headerBlob hs ++ [])))
      (by simpa using h2) h3
    obtain ⟨h7, h8, h9⟩ := Rd_getU16_rem
      ⟨mkRespStartPayload status hs, 0 + 1 + 1⟩ status
      (u32beL hs.length ++ (headerBlob hs ++ [])) hstat
      (by simpa using h5) h6
    obtain ⟨h10, h11, h12⟩ := Rd_getU32_rem
      ⟨mkRespStartPayload status hs, 0 + 1 + 1 + 2⟩ hs.length
      (headerBlob hs ++ []) hcnt (by simpa using h8) h9
    obtain ⟨h13, h14, h15⟩ := readResponseHeaders_blob hs
      ⟨mkRespStartPayload status hs, 0 + 1 + 1 + 2 + 4⟩
      [] hpairs (by simpa using h11) h12
    dsimp only at h13 h14 h15
    have hend : 0 + 1 + 1 + 2 + 4 + (headerBlob hs).length =
        (mkRespStartPayload status hs).length := by
      have hd : (mkRespStartPayload status hs).drop
          (0 + 1 + 1 + 2 + 4 + (headerBlob hs).length) = [] := by
        simpa [Rd.rem] using h14
      have hge := List.drop_eq_nil_iff.mp hd
      omega
    unfold decode_bridge_response_start
    dsimp only
    rw [h1]
    dsimp only
    rw [if_neg (by decide)]
    rw [h4]
    dsimp only
    rw [if_neg (by decide)]
    rw [h7]
    dsimp only
    rw [h10]
    dsimp only
    rw [show is_bridge_response_start_frame_type_tokenized (6 % 256) = false from rfl]
    rw [h13]
    dsimp only
    rw [ensureDone_of_off_eq _ _ hend]

/-- C10 (witness): a response with a valid `host` header, a pair with an
invalid name byte (0x20), and a pair with an invalid value byte (0x0A)
decodes successfully, keeping only the valid pair, on both frame forms. -/
theorem c10_invalid_header_skipped_witness :
    decode_bridge_response
        (mkRespSinglePayload 200
          [([104, 111, 115, 116], [97]), ([32, 120], [98]), ([120], [10])]
          [1, 2]) =
      .ok ⟨200, [([104, 111, 115, 116], [97])], [1, 2]⟩ ∧
    decode_bridge_response_start
        (mkRespStartPayload 200
          [([104, 111, 115, 116], [97]), ([32, 120], [98]), ([120], [10])]) =
      .ok (200, [([104, 111, 115, 116], [97])]) :=
  c10_invalid_header_skipped 200
    [([104, 111, 115, 116], [97]), ([32, 120], [98]), ([120], [10])] [1, 2]
    (by decide) (by decide) (by decide) (by decide)
